import Mathlib

/-!
Verification development for the cbytetpl/dyntpl templating engine.

The development shallowly embeds the engine's parser and renderer:

* Go byte slices become `Bytes := List Char`.
* The Go `Type` and `Op` enumerations are plain `Int` constants, exactly as
  in the source (`type Type int`, `type Op int`), so that the sentinel value
  `-1` used by `rollupSwitchNodes` is representable.
* The flat `Node` struct becomes an inductive wrapping a `NodeData` record
  (all fields, children as a `List Node`).
* The renderer `Tpl.renderNode` and its helpers are embedded as fueled
  functions (fuel only limits the recursion depth; it is an embedding
  artifact and surfaces as the distinguished error `Err.fuelOut`).
* External collaborators (the value inspector, `cbytealg` conversions,
  modifier functions, the comparison helper of `Ctx`) are oracles carried
  by an `Env` record; they are specified only at their interface, matching
  the specification's scope.
-/

namespace Dyntpl

/-- Go byte slices are modelled as lists of characters. -/
abbrev Bytes := List Char

/-- Go `type Type int` (node type tags). -/
abbrev NType := Int

/-- Go `type Op int` (comparison / step operators). -/
abbrev Op := Int

/-- Node type constants, from the source `const` block. -/
def TypeRaw : NType := 0

/-- Print node tag. -/
def TypeTpl : NType := 1

/-- Conditional node tag. -/
def TypeCond : NType := 2

/-- True branch node tag. -/
def TypeCondTrue : NType := 3

/-- False branch node tag. -/
def TypeCondFalse : NType := 4

/-- Range loop node tag. -/
def TypeLoopRange : NType := 5

/-- Counting loop node tag. -/
def TypeLoopCount : NType := 6

/-- Break node tag. -/
def TypeBreak : NType := 7

/-- Continue node tag. -/
def TypeContinue : NType := 8

/-- Context binding node tag. -/
def TypeCtx : NType := 9

/-- Switch node tag. -/
def TypeSwitch : NType := 10

/-- Case node tag. -/
def TypeCase : NType := 11

/-- Default node tag. -/
def TypeDefault : NType := 12

/-- Divider (else) node tag. -/
def TypeDiv : NType := 13

/-- Exit node tag. -/
def TypeExit : NType := 99

/-- Counter node tag.  The constant itself is not in the provided sources
(the type list predates counters) while the parser uses it; modelled as a
fresh tag distinct from all listed ones. -/
def TypeCounter : NType := 14

/-- Operator constants, from the source `const` block. -/
def OpUnk : Op := 0

/-- Equality operator. -/
def OpEq : Op := 1

/-- Inequality operator. -/
def OpNq : Op := 2

/-- Greater-than operator. -/
def OpGt : Op := 3

/-- Greater-or-equal operator. -/
def OpGtq : Op := 4

/-- Less-than operator. -/
def OpLt : Op := 5

/-- Less-or-equal operator. -/
def OpLtq : Op := 6

/-- Increment operator. -/
def OpInc : Op := 7

/-- Decrement operator. -/
def OpDec : Op := 8

/-- `Op.Swap` from ctl_tree.go / tree_types.go: exchange the two ordered
comparisons, leave every other operator unchanged. -/
def Op.Swap (o : Op) : Op :=
  if o = OpGt then OpLt
  else if o = OpGtq then OpLtq
  else if o = OpLt then OpGt
  else if o = OpLtq then OpGtq
  else o

/-- A Go `interface{}` value reaching the renderer: `nil`, a string, a byte
slice, an integer or a boolean.  `vNil` is the nil interface; note that a
boxed empty byte slice is distinct from both `vNil` and `vStr []`, exactly
as in Go. -/
inductive Val where
  | vNil : Val
  | vStr : Bytes → Val
  | vBytes : Bytes → Val
  | vInt : Int → Val
  | vBool : Bool → Val
  deriving DecidableEq

/-- Error values of the engine.  Sentinel control-flow errors
(`breakLoop`, `contLoop`, `interrupt`) are ordinary members, as in the
source where they are package-level `error` values.  `oracle` stands for
an error produced by an external collaborator (inspector lookup failure,
conversion failure, modifier failure).  `fuelOut` is the fuel-exhaustion
artifact of the embedding and corresponds to no source error. -/
inductive Err where
  | tplNotFound : Err
  | emptyArg : Err
  | senselessCond : Err
  | breakLoop : Err
  | contLoop : Err
  | interrupt : Err
  | unknownCtl : Err
  | modNoArgs : Err
  | modPoorArgs : Err
  | unexpectedEOF : Err
  | badCtl : Err
  | condComplex : Err
  | loopParse : Err
  | unknownCtlParse : Err
  | atoiFailed : Err
  | oracle : Nat → Err
  | fuelOut : Err
  deriving DecidableEq

/-- Modifier argument (`arg` struct): raw bytes, a static flag and the
cached inspector tag `ssc` (opaque here). -/
structure ModArg where
  val : Bytes := []
  static : Bool := false
  ssc : Nat := 0
  deriving DecidableEq

/-- Modifier invocation (`mod` struct): the name, the resolved registry key
of the function (the source stores a `*ModFn` obtained from `GetModFn`,
possibly nil; the embedding stores the optional key and the `Env`
interprets it) and the argument list. -/
structure ModNode where
  id : Bytes := []
  fn : Option Bytes := none
  arg : List ModArg := []
  deriving DecidableEq

/-- All fields of the flat `Node` struct.  Field names follow the source;
`prefix`/`suffix` are shortened to their grammar aliases `pfx`/`sfx`.
The renderer reads the condition static flags as `condLStatic`/`condRStatic`
(the parser assigns the same fields under the spelling
`condStaticL`/`condStaticR`). -/
structure NodeData (N : Type) where
  typ : NType := 0
  raw : Bytes := []
  pfx : Bytes := []
  sfx : Bytes := []
  rawStatic : Bool := false
  rawSsc : Nat := 0
  ctxVar : Bytes := []
  ctxSrc : Bytes := []
  ctxSrcStatic : Bool := false
  ctxSrcSsc : Nat := 0
  ctxIns : Bytes := []
  cntrVar : Bytes := []
  cntrInitF : Bool := false
  cntrInit : Int := 0
  cntrOp : Op := 0
  cntrOpArg : Int := 0
  condL : Bytes := []
  condR : Bytes := []
  condLStatic : Bool := false
  condRStatic : Bool := false
  condOp : Op := 0
  condRSsc : Nat := 0
  condHlp : Bytes := []
  condHlpArg : List ModArg := []
  loopKey : Bytes := []
  loopVal : Bytes := []
  loopSrc : Bytes := []
  loopCnt : Bytes := []
  loopCntInit : Bytes := []
  loopCntStatic : Bool := false
  loopCntOp : Op := 0
  loopCondOp : Op := 0
  loopLim : Bytes := []
  loopLimStatic : Bool := false
  loopSep : Bytes := []
  switchArg : Bytes := []
  caseL : Bytes := []
  caseR : Bytes := []
  caseLStatic : Bool := false
  caseRStatic : Bool := false
  caseOp : Op := 0
  caseLSsc : Nat := 0
  caseRSsc : Nat := 0
  mod : List ModNode := []
  child : List N := []

/-- The AST node: the flat struct with an ordered child list. -/
inductive Node where
  | mk : NodeData Node → Node

/-- Projection to the field record. -/
def Node.data : Node → NodeData Node
  | .mk d => d

/-- Node type tag. -/
def Node.typ (n : Node) : NType := n.data.typ

/-- Raw bytes / print source expression. -/
def Node.raw (n : Node) : Bytes := n.data.raw

/-- Print literal written before the value. -/
def Node.pfx (n : Node) : Bytes := n.data.pfx

/-- Print literal written after the value. -/
def Node.sfx (n : Node) : Bytes := n.data.sfx

/-- Whether the print operand is a static literal. -/
def Node.rawStatic (n : Node) : Bool := n.data.rawStatic

/-- Cached inspector tag of the print operand. -/
def Node.rawSsc (n : Node) : Nat := n.data.rawSsc

/-- Context binding variable name. -/
def Node.ctxVar (n : Node) : Bytes := n.data.ctxVar

/-- Context binding source expression. -/
def Node.ctxSrc (n : Node) : Bytes := n.data.ctxSrc

/-- Whether the context source is static. -/
def Node.ctxSrcStatic (n : Node) : Bool := n.data.ctxSrcStatic

/-- Cached inspector tag of the context source. -/
def Node.ctxSrcSsc (n : Node) : Nat := n.data.ctxSrcSsc

/-- Context inspector name. -/
def Node.ctxIns (n : Node) : Bytes := n.data.ctxIns

/-- Condition left operand. -/
def Node.condL (n : Node) : Bytes := n.data.condL

/-- Condition right operand. -/
def Node.condR (n : Node) : Bytes := n.data.condR

/-- Whether the condition left operand is static. -/
def Node.condLStatic (n : Node) : Bool := n.data.condLStatic

/-- Whether the condition right operand is static. -/
def Node.condRStatic (n : Node) : Bool := n.data.condRStatic

/-- Condition comparison operator. -/
def Node.condOp (n : Node) : Op := n.data.condOp

/-- Cached inspector tag of the condition right operand. -/
def Node.condRSsc (n : Node) : Nat := n.data.condRSsc

/-- Loop key binding name. -/
def Node.loopKey (n : Node) : Bytes := n.data.loopKey

/-- Loop value binding name. -/
def Node.loopVal (n : Node) : Bytes := n.data.loopVal

/-- Loop source expression. -/
def Node.loopSrc (n : Node) : Bytes := n.data.loopSrc

/-- Counting loop counter name. -/
def Node.loopCnt (n : Node) : Bytes := n.data.loopCnt

/-- Counting loop initial expression. -/
def Node.loopCntInit (n : Node) : Bytes := n.data.loopCntInit

/-- Whether the counting loop init is static. -/
def Node.loopCntStatic (n : Node) : Bool := n.data.loopCntStatic

/-- Counting loop step operator. -/
def Node.loopCntOp (n : Node) : Op := n.data.loopCntOp

/-- Counting loop stop-condition operator. -/
def Node.loopCondOp (n : Node) : Op := n.data.loopCondOp

/-- Counting loop limit expression. -/
def Node.loopLim (n : Node) : Bytes := n.data.loopLim

/-- Whether the counting loop limit is static. -/
def Node.loopLimStatic (n : Node) : Bool := n.data.loopLimStatic

/-- Loop separator literal. -/
def Node.loopSep (n : Node) : Bytes := n.data.loopSep

/-- Switch discriminant expression. -/
def Node.switchArg (n : Node) : Bytes := n.data.switchArg

/-- Case left operand. -/
def Node.caseL (n : Node) : Bytes := n.data.caseL

/-- Case right operand. -/
def Node.caseR (n : Node) : Bytes := n.data.caseR

/-- Whether the case left operand is static. -/
def Node.caseLStatic (n : Node) : Bool := n.data.caseLStatic

/-- Whether the case right operand is static. -/
def Node.caseRStatic (n : Node) : Bool := n.data.caseRStatic

/-- Case comparison operator. -/
def Node.caseOp (n : Node) : Op := n.data.caseOp

/-- Cached inspector tag of the case left operand. -/
def Node.caseLSsc (n : Node) : Nat := n.data.caseLSsc

/-- Cached inspector tag of the case right operand. -/
def Node.caseRSsc (n : Node) : Nat := n.data.caseRSsc

/-- Modifier chain of a print node. -/
def Node.mod (n : Node) : List ModNode := n.data.mod

/-- Ordered children. -/
def Node.child (n : Node) : List Node := n.data.child

/-- Replace the child list (used by the switch rollup, which appends to
`group.child`). -/
def Node.withChild (n : Node) (c : List Node) : Node :=
  .mk { n.data with child := c }

/-- The parsed template: an ordered sequence of top-level nodes
(`Tree` struct). -/
structure Tree where
  nodes : List Node := []

/-- `addNode` from ctl_tree.go: append a node. -/
def addNode (nodes : List Node) (node : Node) : List Node :=
  nodes ++ [node]

/-- `addRaw` from ctl_tree.go: append a raw-text node, dropping empty
spans. -/
def addRaw (nodes : List Node) (raw : Bytes) : List Node :=
  if raw.length = 0 then nodes
  else nodes ++ [Node.mk { typ := TypeRaw, raw := raw }]

/-- Helper for `splitNodes`: walk the list keeping the current segment
(`seg`, the nodes since the previous divider); a divider emits the segment
(possibly empty), end of input emits the final segment only when non-empty.
This is the source's index loop (`split = append(split, nodes[o:i])`,
final `if o < len(nodes)`) in recursive form. -/
def splitNodesAux (seg : List Node) : List Node → List (List Node)
  | [] => if seg.isEmpty then [] else [seg]
  | n :: rest =>
    if n.typ = TypeDiv then seg :: splitNodesAux [] rest
    else splitNodesAux (seg ++ [n]) rest

/-- `splitNodes` from ctl_tree.go: split a flat node list at every
top-level divider node. -/
def splitNodes (nodes : List Node) : List (List Node) :=
  if nodes.isEmpty then [] else splitNodesAux [] nodes

/-- Whether a node carries the Case or Default tag. -/
def isCaseOrDefault (n : Node) : Bool :=
  n.typ = TypeCase || n.typ = TypeDefault

/-- The loop of `rollupSwitchNodes`: `r` is the accumulated group list,
`group` the group under construction (`typ = -1` is the source's sentinel
for "no group open yet").  Mirrors the three-way branch of the source loop
body exactly. -/
def rollupLoop (r : List Node) (group : Node) : List Node → List Node × Node
  | [] => (r, group)
  | node :: rest =>
    if ¬ isCaseOrDefault node ∧ group.typ = -1 then
      rollupLoop r group rest
    else if isCaseOrDefault node then
      rollupLoop (if group.typ ≠ -1 then r ++ [group] else r) node rest
    else
      rollupLoop r (group.withChild (group.child ++ [node])) rest

/-- The code after the loop of `rollupSwitchNodes`: the final open group
is appended only when its child list is non-empty. -/
def rollupFin (p : List Node × Node) : List Node :=
  if p.2.child.length > 0 then p.1 ++ [p.2] else p.1

/-- `rollupSwitchNodes` from ctl_tree.go: group a switch body's flat child
list under its Case/Default heads; the final open group is appended only
when its child list is non-empty. -/
def rollupSwitchNodes (nodes : List Node) : List Node :=
  if nodes.isEmpty then []
  else rollupFin (rollupLoop [] (Node.mk { typ := -1 }) nodes)

/-- Go map assignment (`m[k] = v`), modelled on an association list with
most-recent-write-first lookup. -/
def mapAssign {A : Type} (m : List (Bytes × A)) (k : Bytes) (v : A) : List (Bytes × A) :=
  (k, v) :: m

/-- Go map lookup (`v, ok := m[k]`): the most recent binding of `k`,
`none` when `k` was never assigned. -/
def mapGet {A : Type} (k : Bytes) : List (Bytes × A) → Option A
  | [] => none
  | (k2, v) :: rest => if k2 = k then some v else mapGet k rest

/-- `RegisterModFn` from the modifier registry: bind the function under
`name`, and also under `alias` when the alias is non-empty.  Generic in the
function type, since the registry stores opaque function values. -/
def RegisterModFn {A : Type} (name aliasName : Bytes) (fn : A)
    (reg : List (Bytes × A)) : List (Bytes × A) :=
  let reg1 := mapAssign reg name fn
  if aliasName.length > 0 then mapAssign reg1 aliasName fn else reg1

/-- `GetModFn` from the modifier registry: look the function up by name
(the source returns a pointer to the stored function; the embedding
returns the stored value as an option, `none` standing for the source's
nil pointer). -/
def GetModFn {A : Type} (name : Bytes) (reg : List (Bytes × A)) : Option A :=
  mapGet name reg

/-- The per-render context.  The source `Ctx` also carries the scratch
buffers `buf`/`bbuf`/`modA`; in the renderer every read of a scratch buffer
is preceded by a write inside the same node evaluation, so the embedding
holds them in local bindings instead.  `vars` is the variable binding
table, `err` the `Ctx.Err` evaluation-error slot. -/
structure Ctx where
  vars : List (Bytes × Val) := []
  err : Option Err := none

/-- External collaborators of the renderer, specified at their interface:
dynamic path resolution (`Ctx.getSsc`), the inspector-level comparator
(`Ctx.cmp`), `cbytealg.AnyToBytes` conversion (modelled as a pure
conversion of the value, per the interface contract "convert the final
value to its textual byte representation"), modifier invocation (keyed by
the registry name stored in the node), `inspector.GetInspector` (only its
failure behaviour matters), the inspector's enumeration of a range-loop
source into key/value elements, and the counting-loop init/limit/condition
helpers of the loop engine. -/
structure Env where
  getSsc : List (Bytes × Val) → Bytes → Nat → Val × Option Err
  cmp : List (Bytes × Val) → Bytes → Op → Bytes → Bool × Option Err
  anyToBytes : Val → Bytes × Option Err
  callMod : Bytes → List (Bytes × Val) → Val → List Val → Val × Option Err
  getInspector : Bytes → Option Err
  rangeElems : List (Bytes × Val) → Bytes → List (Val × Val)
  cloopInit : List (Bytes × Val) → Bytes → Bool → Int
  cloopLim : List (Bytes × Val) → Bytes → Bool → Int
  cloopCmp : Int → Op → Int → Bool

/-- `Ctx.Set`: bind a variable (the inspector argument of the source only
drives later resolution and is absorbed by the `getSsc` oracle). -/
def Ctx.set (ctx : Ctx) (name : Bytes) (v : Val) : Ctx :=
  { ctx with vars := mapAssign ctx.vars name v }

/-- `Ctx.SetBytes`: bind a variable to a static byte literal. -/
def Ctx.setBytes (ctx : Ctx) (name : Bytes) (b : Bytes) : Ctx :=
  ctx.set name (Val.vBytes b)

/-- `Ctx.getSsc`: resolve a dynamic path, recording a resolution failure in
`Ctx.Err` (the source also caches the value in `ctx.buf`; callers of the
embedding use the returned value directly). -/
def getSscC (env : Env) (ctx : Ctx) (path : Bytes) (ssc : Nat) : Val × Ctx :=
  let p := env.getSsc ctx.vars path ssc
  (p.1, { ctx with err := match p.2 with | some e => some e | none => ctx.err })

/-- `Ctx.cmp`: the inspector-level comparison, recording a failure in
`Ctx.Err`. -/
def cmpC (env : Env) (ctx : Ctx) (l : Bytes) (op : Op) (r : Bytes) : Bool × Ctx :=
  let p := env.cmp ctx.vars l op r
  (p.1, { ctx with err := match p.2 with | some e => some e | none => ctx.err })

/-- Resolve a modifier's argument list (`ctx.modA`): static arguments are
passed as byte literals, dynamic ones resolved through `Ctx.getSsc`. -/
def resolveModArgs (env : Env) : List ModArg → Ctx → List Val × Ctx
  | [], ctx => ([], ctx)
  | a :: rest, ctx =>
    if a.static then
      let p := resolveModArgs env rest ctx
      (Val.vBytes a.val :: p.1, p.2)
    else
      let (v, ctx1) := getSscC env ctx a.val a.ssc
      let p := resolveModArgs env rest ctx1
      (v :: p.1, p.2)

/-- The modifier chain of `renderNode` (TypeTpl): each modifier receives
the current value and its resolved arguments; `ctx.Err` is assigned the
call's result, a failing call stops the chain with the value unchanged
(the source breaks before `raw = ctx.buf`). -/
def runMods (env : Env) : List ModNode → Val → Ctx → Val × Ctx
  | [], raw, ctx => (raw, ctx)
  | m :: rest, raw, ctx =>
    let (args, ctx1) := resolveModArgs env m.arg ctx
    let p := env.callMod (m.fn.getD []) ctx1.vars raw args
    let ctx2 := { ctx1 with err := p.2 }
    match p.2 with
    | some _ => (raw, ctx2)
    | none => runMods env rest p.1 ctx2

/-- Result of one render step: the bytes this evaluation wrote (the
writer is modelled in delta style: callers concatenate), the context, and
the `error` result (`none` = nil). -/
abbrev RRes := Bytes × Ctx × Option Err

/-- The inspector's loop-control result (`inspector.LoopCtl`). -/
inductive LoopCtl where
  | nrm : LoopCtl
  | brk : LoopCtl
  | cnt : LoopCtl
  deriving DecidableEq

/-- Outcome of the switch child loop, separated from the rendering of the
matched case: an early `return` with an error, a matched case node, or a
fall-through without a match. -/
inductive SwDecision where
  | abort : Ctx → Err → SwDecision
  | matched : Node → Ctx → SwDecision
  | nomatch : Ctx → SwDecision

/-- The switch child loop when a discriminant is present: compare the
discriminant with each Case's left operand using equality (the case's own
operator is not consulted); the first match selects that case and stops
the scan; a conversion failure returns early; a resolution failure leaves
the match flag false and the scan continues, as in the source. -/
def switchScanArgD (env : Env) (arg : Bytes) : List Node → Ctx → SwDecision
  | [], ctx => SwDecision.nomatch ctx
  | ch :: rest, ctx =>
    if ch.typ = TypeCase then
      if ch.caseLStatic then
        let (r, ctx1) := cmpC env ctx arg OpEq ch.caseL
        if r then SwDecision.matched ch ctx1 else switchScanArgD env arg rest ctx1
      else
        let (v, ctx1) := getSscC env ctx ch.caseL ch.caseLSsc
        if ctx1.err = none then
          let cp := env.anyToBytes v
          match cp.2 with
          | some e => SwDecision.abort ctx1 e
          | none =>
            let (r, ctx2) := cmpC env ctx1 arg OpEq cp.1
            if r then SwDecision.matched ch ctx2 else switchScanArgD env arg rest ctx2
        else switchScanArgD env arg rest ctx1
    else switchScanArgD env arg rest ctx

/-- The switch child loop without a discriminant: each Case is evaluated
as a free-standing comparison exactly like a conditional — rejecting a
Case with two static operands as senseless, swapping the operator when
only the left operand is static, resolving and converting the right
operand when both are dynamic — followed by the `ctx.Err` check; the
first matching case is selected. -/
def switchScanNoArgD (env : Env) : List Node → Ctx → SwDecision
  | [], ctx => SwDecision.nomatch ctx
  | ch :: rest, ctx =>
    if ch.typ = TypeCase then
      if ch.caseLStatic ∧ ch.caseRStatic then
        SwDecision.abort ctx Err.senselessCond
      else if ch.caseRStatic then
        let (r, ctx1) := cmpC env ctx ch.caseL ch.caseOp ch.caseR
        match ctx1.err with
        | some e => SwDecision.abort ctx1 e
        | none =>
          if r then SwDecision.matched ch ctx1 else switchScanNoArgD env rest ctx1
      else if ch.caseLStatic then
        let (r, ctx1) := cmpC env ctx ch.caseR (Op.Swap ch.caseOp) ch.caseL
        match ctx1.err with
        | some e => SwDecision.abort ctx1 e
        | none =>
          if r then SwDecision.matched ch ctx1 else switchScanNoArgD env rest ctx1
      else
        let (v, ctx1) := getSscC env ctx ch.caseR ch.caseRSsc
        if ctx1.err = none then
          let cp := env.anyToBytes v
          match cp.2 with
          | some e => SwDecision.abort ctx1 e
          | none =>
            let (r, ctx2) := cmpC env ctx1 ch.caseL ch.caseOp cp.1
            match ctx2.err with
            | some e => SwDecision.abort ctx2 e
            | none =>
              if r then SwDecision.matched ch ctx2 else switchScanNoArgD env rest ctx2
        else
          match ctx1.err with
          | some e => SwDecision.abort ctx1 e
          | none => switchScanNoArgD env rest ctx1
    else switchScanNoArgD env rest ctx

set_option maxHeartbeats 2000000

mutual

/-- `Tpl.renderNode` from dyntpl.go: evaluate one node against the
context, returning the bytes written for it.  Fuel only bounds recursion
depth (`Err.fuelOut`). -/
def renderNode (env : Env) (fuel : Nat) (node : Node) (ctx : Ctx) : RRes :=
  match fuel with
  | 0 => ([], ctx, some Err.fuelOut)
  | Nat.succ f =>
    if node.typ = TypeRaw then
      (node.raw, ctx, none)
    else if node.typ = TypeTpl then
      let rp : Val × Ctx :=
        if node.rawStatic then (Val.vBytes node.raw, ctx)
        else getSscC env ctx node.raw node.rawSsc
      match rp.2.err with
      | some e => ([], rp.2, some e)
      | none =>
        let mp := runMods env node.mod rp.1 rp.2
        match mp.2.err with
        | some _ => ([], mp.2, none)
        | none =>
          if mp.1 = Val.vNil ∨ mp.1 = Val.vStr [] then ([], mp.2, some Err.emptyArg)
          else
            let cp := env.anyToBytes mp.1
            match cp.2 with
            | none => (node.pfx ++ cp.1 ++ node.sfx, mp.2, none)
            | some e => ([], mp.2, some e)
    else if node.typ = TypeCtx then
      if node.ctxSrcStatic then ([], ctx.setBytes node.ctxVar node.ctxSrc, none)
      else
        match env.getInspector node.ctxIns with
        | some e => ([], ctx, some e)
        | none =>
          let (v, ctx1) := getSscC env ctx node.ctxSrc node.ctxSrcSsc
          ([], ctx1.set node.ctxVar v, none)
    else if node.typ = TypeCond then
      if node.condLStatic ∧ node.condRStatic then ([], ctx, some Err.senselessCond)
      else if node.condRStatic then
        let (r, ctx1) := cmpC env ctx node.condL node.condOp node.condR
        condTail env f node.child r ctx1
      else if node.condLStatic then
        let (r, ctx1) := cmpC env ctx node.condR (Op.Swap node.condOp) node.condL
        condTail env f node.child r ctx1
      else
        let (v, ctx1) := getSscC env ctx node.condR node.condRSsc
        if ctx1.err = none then
          let cp := env.anyToBytes v
          match cp.2 with
          | some e => ([], ctx1, some e)
          | none =>
            let (r, ctx2) := cmpC env ctx1 node.condL node.condOp cp.1
            condTail env f node.child r ctx2
        else condTail env f node.child false ctx1
    else if node.typ = TypeCondTrue ∨ node.typ = TypeCondFalse ∨
            node.typ = TypeCase ∨ node.typ = TypeDefault then
      renderNodesSeq env f node.child ctx
    else if node.typ = TypeLoopCount then
      let i0 := env.cloopInit ctx.vars node.loopCntInit node.loopCntStatic
      let lim := env.cloopLim ctx.vars node.loopLim node.loopLimStatic
      let p := cloopRun env f node i0 lim 0 ctx
      match p.2.err with
      | some e => (p.1, p.2, some e)
      | none => (p.1, p.2, none)
    else if node.typ = TypeLoopRange then
      let elems := env.rangeElems ctx.vars node.loopSrc
      let p := rloopDrive env f node elems 0 ctx
      match p.2.err with
      | some e => (p.1, p.2, some e)
      | none => (p.1, p.2, none)
    else if node.typ = TypeBreak then ([], ctx, some Err.breakLoop)
    else if node.typ = TypeContinue then ([], ctx, some Err.contLoop)
    else if node.typ = TypeSwitch then
      let d := if node.switchArg.length > 0
               then switchScanArgD env node.switchArg node.child ctx
               else switchScanNoArgD env node.child ctx
      match d with
      | SwDecision.abort ctx1 e => ([], ctx1, some e)
      | SwDecision.matched ch ctx1 => renderNode env f ch ctx1
      | SwDecision.nomatch ctx1 =>
        match node.child.find? (fun ch => ch.typ == TypeDefault) with
        | some dn => renderNode env f dn ctx1
        | none => ([], ctx1, none)
    else if node.typ = TypeExit then ([], ctx, some Err.interrupt)
    else ([], ctx, some Err.unknownCtl)
termination_by structural fuel

/-- The tail of the conditional branch: check `ctx.Err`, then render the
first child when the comparison is true, or — when more than one child is
present — the node the source's false branch designates (which is again
`node.child[0]` in the provided code). -/
def condTail (env : Env) (fuel : Nat) (children : List Node) (r : Bool)
    (ctx : Ctx) : RRes :=
  match ctx.err with
  | some e => ([], ctx, some e)
  | none =>
    match fuel with
    | 0 => ([], ctx, some Err.fuelOut)
    | Nat.succ f =>
      if r then
        match children with
        | [] => ([], ctx, none)
        | c :: _ => renderNode env f c ctx
      else
        match children with
        | c :: _ :: _ => renderNode env f c ctx
        | _ => ([], ctx, none)
termination_by structural fuel

/-- The child loop shared by CondTrue/CondFalse/Case/Default: render the
children in order, stopping at the first error. -/
def renderNodesSeq (env : Env) (fuel : Nat) (ns : List Node) (ctx : Ctx) : RRes :=
  match ns with
  | [] => ([], ctx, none)
  | n :: rest =>
    match fuel with
    | 0 => ([], ctx, some Err.fuelOut)
    | Nat.succ f =>
      let p := renderNode env f n ctx
      match p.2.2 with
      | some e => (p.1, p.2.1, some e)
      | none =>
        let q := renderNodesSeq env f rest p.2.1
        (p.1 ++ q.1, q.2)
termination_by structural fuel

/-- The body loop of `RangeLoop.Iterate`: render the loop node's children,
mapping the break/continue sentinel errors to loop-control results; any
other error does not stop the walk and is dropped at its end, exactly as
in the source loop. -/
def iterateBody (env : Env) (fuel : Nat) (ns : List Node) (ctx : Ctx) :
    Bytes × Ctx × LoopCtl :=
  match ns with
  | [] => ([], ctx, LoopCtl.nrm)
  | ch :: rest =>
    match fuel with
    | 0 => ([], ctx, LoopCtl.nrm)
    | Nat.succ f =>
      let p := renderNode env f ch ctx
      if p.2.2 = some Err.breakLoop then (p.1, p.2.1, LoopCtl.brk)
      else if p.2.2 = some Err.contLoop then (p.1, p.2.1, LoopCtl.cnt)
      else
        let q := iterateBody env f rest p.2.1
        (p.1 ++ q.1, q.2)
termination_by structural fuel

/-- The range-loop driver (`Ctx.rloop` is not among the provided sources;
modelled from the spec: enumerate the source's elements through the
inspector, bind the optional key and the value for each element, run
`RangeLoop.Iterate` once per element — which itself writes the separator
when its counter is positive and increments it — and stop on break). -/
def rloopDrive (env : Env) (fuel : Nat) (node : Node) (elems : List (Val × Val))
    (cntr : Nat) (ctx : Ctx) : Bytes × Ctx :=
  match elems with
  | [] => ([], ctx)
  | (k, v) :: rest =>
    match fuel with
    | 0 => ([], ctx)
    | Nat.succ f =>
      let ctx1 := if node.loopKey.length > 0 then ctx.set node.loopKey k else ctx
      let ctx2 := ctx1.set node.loopVal v
      let sep := if cntr > 0 ∧ node.loopSep.length > 0 then node.loopSep else []
      let p := iterateBody env f node.child ctx2
      match p.2.2 with
      | LoopCtl.brk => (sep ++ p.1, p.2.1)
      | _ =>
        let q := rloopDrive env f node rest (cntr + 1) p.2.1
        (sep ++ p.1 ++ q.1, q.2)
termination_by structural fuel

/-- The counting-loop engine (`Ctx.cloop` is not among the provided
sources; modelled from the spec: evaluate the stop condition with the
declared operator each iteration, bind the counter, render the body with
break/continue and separator handling as in range loops, then apply the
declared step).  Fuel bounds the — potentially unbounded — iteration. -/
def cloopRun (env : Env) (fuel : Nat) (node : Node) (i lim : Int) (cntr : Nat)
    (ctx : Ctx) : Bytes × Ctx :=
  match fuel with
  | 0 => ([], ctx)
  | Nat.succ f =>
    if env.cloopCmp i node.loopCondOp lim then
      let sep := if cntr > 0 ∧ node.loopSep.length > 0 then node.loopSep else []
      let ctx1 := ctx.set node.loopCnt (Val.vInt i)
      let p := iterateBody env f node.child ctx1
      let i2 := if node.loopCntOp = OpDec then i - 1 else i + 1
      match p.2.2 with
      | LoopCtl.brk => (sep ++ p.1, p.2.1)
      | _ =>
        let q := cloopRun env f node i2 lim (cntr + 1) p.2.1
        (sep ++ p.1 ++ q.1, q.2)
    else ([], ctx)
termination_by structural fuel

end

/-- `RangeLoop.Iterate` from ctl_tree.go: write the separator when the
iteration counter is positive, then run the body loop.  The counter (the
source's `rl.cntr`, incremented at each call) is passed explicitly by the
driver. -/
def iterateRL (env : Env) (f : Nat) (node : Node) (cntr : Nat) (ctx : Ctx) :
    Bytes × Ctx × LoopCtl :=
  let sep := if cntr > 0 ∧ node.loopSep.length > 0 then node.loopSep else []
  let p := iterateBody env f node.child ctx
  (sep ++ p.1, p.2)

/-- The node loop of `RenderTo`: render the top-level nodes in order; the
first error stops the walk and is returned, with the interrupt signal
downgraded to success. -/
def renderNodesTop (env : Env) : Nat → List Node → Ctx → RRes
  | _, [], ctx => ([], ctx, none)
  | 0, _ :: _, ctx => ([], ctx, some Err.fuelOut)
  | Nat.succ f, n :: rest, ctx =>
    let p := renderNode env f n ctx
    match p.2.2 with
    | some e => (p.1, p.2.1, if e = Err.interrupt then none else some e)
    | none =>
      let q := renderNodesTop env f rest p.2.1
      (p.1 ++ q.1, q.2)

/-- `RegisterTpl`: store a parsed tree in the template registry. -/
def RegisterTpl (id : Bytes) (tree : Tree) (reg : List (Bytes × Tree)) :
    List (Bytes × Tree) :=
  mapAssign reg id tree

/-- `RenderTo` from dyntpl.go: look the template up in the registry and
render its top-level nodes. -/
def RenderTo (env : Env) (f : Nat) (reg : List (Bytes × Tree)) (id : Bytes)
    (ctx : Ctx) : RRes :=
  match mapGet id reg with
  | none => ([], ctx, some Err.tplNotFound)
  | some tree => renderNodesTop env f tree.nodes ctx

/-- Regexp word character (`\w`). -/
def isWordChar (c : Char) : Bool := c.isAlphanum || c = '_'

/-- Regexp digit (`\d`). -/
def isDigitChar (c : Char) : Bool := c.isDigit

/-- Regexp whitespace (`\s`). -/
def isSpaceChar (c : Char) : Bool := c = ' ' || c = '\t' || c = '\n' || c = '\r'

/-- A comparison-operator character of the case pattern (`[<=>!]`). -/
def isOpChar (c : Char) : Bool := c = '<' || c = '=' || c = '>' || c = '!'

/-- The `{%` opening delimiter. -/
def ctlOpen : Bytes := ['{', '%']

/-- The `%}` closing delimiter. -/
def ctlClose : Bytes := ['%', '}']

/-- Trim cutset for control content (`{}% `). -/
def ctlTrim : Bytes := ['{', '}', '%', ' ']

/-- Trim cutset for print content (`{}%= `). -/
def ctlTrimAll : Bytes := ['{', '}', '%', '=', ' ']

/-- The formatting cutset (space, tab, newline). -/
def noFmt : Bytes := [' ', '\t', '\n']

/-- The quote characters stripped from static arguments: double quote,
apostrophe, backtick. -/
def quotesB : Bytes := ['"', Char.ofNat 39, Char.ofNat 96]

/-- A single space, the operand trim cutset. -/
def spaceB : Bytes := [' ']

/-- `bytealg.Trim` from the left: drop leading cutset characters. -/
def trimLeft (s cutset : Bytes) : Bytes :=
  s.dropWhile (fun c => cutset.contains c)

/-- `bytealg.Trim` from the right: drop trailing cutset characters. -/
def trimRight (s cutset : Bytes) : Bytes :=
  (s.reverse.dropWhile (fun c => cutset.contains c)).reverse

/-- `bytealg.Trim`: drop cutset characters from both ends. -/
def trim (s cutset : Bytes) : Bytes :=
  trimRight (trimLeft s cutset) cutset

/-- Offset of the first occurrence of `p` in a suffix, if any. -/
def indexSuffix (p : Bytes) : Bytes → Option Nat
  | [] => if p = [] then some 0 else none
  | c :: rest =>
    if p.isPrefixOf (c :: rest) then some 0
    else (indexSuffix p rest).map (· + 1)

/-- `bytealg.IndexAt`: the first occurrence of `p` in `s` at or after
offset `k` (`none` models the source's `-1`). -/
def indexAt (s p : Bytes) (k : Nat) : Option Nat :=
  (indexSuffix p (s.drop k)).map (· + k)

/-- Whether `p` occurs anywhere in `s` (an unanchored regexp literal). -/
def containsSub (s p : Bytes) : Bool :=
  (indexAt s p 0).isSome

/-- Try a positional matcher at every suffix, left to right: the leftmost
match wins, as for an unanchored regexp. -/
def scanFirst {R : Type} (att : Bytes → Option R) : Bytes → Option R
  | [] => att []
  | c :: rest =>
    match att (c :: rest) with
    | some r => some r
    | none => scanFirst att rest

/-- Modelled from the spec: `isStatic` is not among the provided sources.
The spec classifies an operand as *static* when it is "a literal byte
sequence, known at compile time": a numeric literal or a quoted string. -/
def isStatic (b : Bytes) : Bool :=
  match b with
  | [] => false
  | c :: rest =>
    (isDigitChar c && rest.all isDigitChar) ||
    (quotesB.contains c && !rest.isEmpty && quotesB.contains (rest.getLastD c))

/-- `Parser.parseOp`: operator bytes to `Op`. -/
def parseOp (src : Bytes) : Op :=
  if src = ("==").toList then OpEq
  else if src = ("!=").toList then OpNq
  else if src = (">").toList then OpGt
  else if src = (">=").toList then OpGtq
  else if src = ("<").toList then OpLt
  else if src = ("<=").toList then OpLtq
  else if src = ("++").toList then OpInc
  else if src = ("--").toList then OpDec
  else OpUnk

/-- Digits to a number (`strconv.Atoi` on a `\d+` capture, which cannot
fail). -/
def bytesToInt (b : Bytes) : Int :=
  (b.foldl (fun a c => a * 10 + (c.toNat - 48)) 0 : Nat)

/-- Match one comparison-operator alternative of `reCondExpr`
(`==|!=|>=|<=|>|<`, in that order) at the head of `l`. -/
def opAt (l : Bytes) : Option (Bytes × Bytes) :=
  match l with
  | '=' :: '=' :: r => some (('=' :: '=' :: []), r)
  | '!' :: '=' :: r => some (('!' :: '=' :: []), r)
  | '>' :: '=' :: r => some (('>' :: '=' :: []), r)
  | '<' :: '=' :: r => some (('<' :: '=' :: []), r)
  | '>' :: r => some (('>' :: []), r)
  | '<' :: r => some (('<' :: []), r)
  | _ => none

/-- Split at the last operator occurrence: the greedy `(.*)` before the
operator group of `reCondExpr` prefers the rightmost split. -/
def lastOpSplitAux (before : Bytes) (best : Option (Bytes × Bytes × Bytes)) :
    Bytes → Option (Bytes × Bytes × Bytes)
  | [] => best
  | c :: r =>
    let best2 := match opAt (c :: r) with
      | some (op, after) => some (before, op, after)
      | none => best
    lastOpSplitAux (before ++ [c]) best2 r

/-- `Parser.parseCondExpr` via `reCondExpr` =
`if (.*)(==|!=|>=|<=|>|<)(.*)`: left/right operands, their static flags and
the operator; all zero when the expression has no comparison. -/
def parseCondExpr (t : Bytes) : Bytes × Bytes × Bool × Bool × Op :=
  match indexAt t (("if ").toList) 0 with
  | none => ([], [], false, false, OpUnk)
  | some i =>
    match lastOpSplitAux [] none (t.drop (i + 3)) with
    | none => ([], [], false, false, OpUnk)
    | some (m1, m2, m3) =>
      let l := trim m1 spaceB
      let r := trim m3 spaceB
      (l, r, isStatic l, isStatic r, parseOp m2)

/-- Positional matcher for `reSwitchCase` =
`case ([^<=>!]+)([<=>!]{2})*(.*)`: the left operand, the last operator
pair consumed by the starred group (empty when none) and the rest. -/
def reSwitchCaseAt (l : Bytes) : Option (Bytes × Bytes × Bytes) :=
  if (("case ").toList).isPrefixOf l then
    let r0 := l.drop 5
    let m1 := r0.takeWhile (fun c => !isOpChar c)
    if m1.isEmpty then none
    else
      let opRun := (r0.drop m1.length).takeWhile isOpChar
      let rest := r0.drop (m1.length + opRun.length)
      let pairs := opRun.length / 2
      let m2 := if pairs = 0 then [] else (opRun.drop (2 * pairs - 2)).take 2
      let m3 := opRun.drop (2 * pairs) ++ rest
      some (m1, m2, m3)
  else none

/-- `reSwitchCase`, unanchored. -/
def reSwitchCasef (t : Bytes) : Option (Bytes × Bytes × Bytes) :=
  scanFirst reSwitchCaseAt t

/-- `Parser.parseCaseExpr` (the dyntpl form, with static flags). -/
def parseCaseExpr (t : Bytes) : Bytes × Bytes × Bool × Bool × Op :=
  match reSwitchCasef t with
  | none => ([], [], false, false, OpUnk)
  | some (m1, m2, m3) =>
    let l := trim m1 spaceB
    let r := trim m3 spaceB
    (l, r, isStatic l, isStatic r, parseOp m2)

/-- `reCond` = `if .*`: the content mentions a conditional. -/
def reCondMatch (t : Bytes) : Bool :=
  containsSub t (("if ").toList)

/-- `reCondComplex` = `if .*&&|\|\||\(|\).*`: boolean composition the
engine refuses — an alternation matching `||`, a parenthesis, or `&&`
somewhere after `if `. -/
def reCondComplexMatch (t : Bytes) : Bool :=
  containsSub t ('|' :: '|' :: []) || containsSub t ['('] || containsSub t [')'] ||
  (match indexAt t (("if ").toList) 0 with
   | some i => (indexAt t ('&' :: '&' :: []) (i + 3)).isSome
   | none => false)

/-- Positional matcher for `reCondHelper` = `if ([^(]+)\(*([^)]*)\)`:
helper name and raw argument bytes.  The greedy first group reaches at
most the first parenthesis and backtracks to the last closing parenthesis,
so the split point is the smaller of the two. -/
def reCondHelperAt (l : Bytes) : Option (Bytes × Bytes) :=
  if (("if ").toList).isPrefixOf l then
    let r0 := l.drop 3
    let q := (r0.takeWhile (fun c => c ≠ '(')).length
    match (indexSuffix [')'] r0.reverse).map (fun j => r0.length - 1 - j) with
    | none => none
    | some lastRp =>
      let k := min q lastRp
      if k = 0 then none
      else
        let m1 := r0.take k
        let r1 := (r0.drop k).dropWhile (fun c => c = '(')
        let m2 := r1.takeWhile (fun c => c ≠ ')')
        some (m1, m2)
  else none

/-- `reCondHelper`, unanchored. -/
def reCondHelperf (t : Bytes) : Option (Bytes × Bytes) :=
  scanFirst reCondHelperAt t

/-- The anchored mode prefix shared by the print regexes
(`^([jhqu]*|[fF]\.*\d*)=`): the mode capture and the text after the `=`.
Both alternatives are deterministic because no mode character equals
`=`. -/
def tplModeSplit (t : Bytes) : Option (Bytes × Bytes) :=
  let run := t.takeWhile (fun c => c = 'j' || c = 'h' || c = 'q' || c = 'u')
  match t.drop run.length with
  | '=' :: tail => some (run, tail)
  | _ =>
    match t with
    | c :: t2 =>
      if c = 'f' || c = 'F' then
        let dots := t2.takeWhile (fun d => d = '.')
        let t3 := t2.drop dots.length
        let digs := t3.takeWhile isDigitChar
        match t3.drop digs.length with
        | '=' :: tail => some (c :: (dots ++ digs), tail)
        | _ => none
      else none
    | [] => none

/-- Match one token of a list at the head of `l` (regexp alternation
order), returning the text after it. -/
def tokAt (toks : List Bytes) (l : Bytes) : Option Bytes :=
  match toks with
  | [] => none
  | tk :: rest => if tk.isPrefixOf l then some (l.drop tk.length) else tokAt rest l

/-- Split at the *last* occurrence of a token (the greedy `(.*)` before
` (?:prefix|pfx) ` or ` (?:suffix|sfx) ` prefers the rightmost split). -/
def lastSplitAux (toks : List Bytes) (before : Bytes)
    (best : Option (Bytes × Bytes)) : Bytes → Option (Bytes × Bytes)
  | [] => best
  | c :: r =>
    let best2 := match tokAt toks (c :: r) with
      | some after => some (before, after)
      | none => best
    lastSplitAux toks (before ++ [c]) best2 r

/-- The prefix-clause separators (` prefix ` / ` pfx `). -/
def pfxToks : List Bytes := [(" prefix ").toList, (" pfx ").toList]

/-- The suffix-clause separators (` suffix ` / ` sfx `). -/
def sfxToks : List Bytes := [(" suffix ").toList, (" sfx ").toList]

/-- The body split of `reTplPS`: the last prefix-separator position whose
remainder still holds a suffix separator, then the last suffix separator
inside that remainder. -/
def lastSplitPSAux (before : Bytes) (best : Option (Bytes × Bytes × Bytes)) :
    Bytes → Option (Bytes × Bytes × Bytes)
  | [] => best
  | c :: r =>
    let best2 := match tokAt pfxToks (c :: r) with
      | some after =>
        match lastSplitAux sfxToks [] none after with
        | some (mid, suf) => some (before, mid, suf)
        | none => best
      | none => best
    lastSplitPSAux (before ++ [c]) best2 r

/-- `reMod` = `([^(]+)\(*([^)]*)\)*` at one position: modifier name and
raw argument bytes. -/
def reModAt (l : Bytes) : Option (Bytes × Bytes) :=
  let m1 := l.takeWhile (fun c => c ≠ '(')
  if m1.isEmpty then none
  else
    let r1 := (l.drop m1.length).dropWhile (fun c => c = '(')
    some (m1, r1.takeWhile (fun c => c ≠ ')'))

/-- `reModPfxF` = `([fF]+)\.*(\d*)`: first mode character of the float
run and the precision digits. -/
def reModPfxFAt (l : Bytes) : Option (Char × Bytes) :=
  match l with
  | c :: r =>
    if c = 'f' || c = 'F' then
      let run := r.takeWhile (fun d => d = 'f' || d = 'F')
      let r1 := (r.drop run.length).dropWhile (fun d => d = '.')
      some (c, r1.takeWhile isDigitChar)
    else none
  | [] => none

/-- `Parser.extractArgs`: split the raw argument bytes on commas; each
argument is space-trimmed, stored quote-stripped, and flagged static. -/
def extractArgs (l : Bytes) : List ModArg :=
  if l.isEmpty then []
  else (l.splitOn ',').map (fun a0 =>
    let a := trim a0 spaceB
    { val := trim a quotesB, static := isStatic a })

/-- `Parser.extractMods`: cut the value at `|`, resolve each suffix
modifier through `GetModFn` (unknown names are skipped), then append the
built-in modifier selected by the output-mode prefix (`j`/`q`/`h`/`u` and
`f`/`F` with precision; these are appended without a nil check, as in the
source). -/
def extractMods (preg : List (Bytes × Bytes)) (t outm : Bytes) :
    Bytes × List ModNode :=
  if containsSub t ['|'] || outm.length > 0 then
    let chunks := t.splitOn '|'
    let mods0 : List ModNode := (chunks.drop 1).foldl (fun acc chunk =>
      match scanFirst reModAt chunk with
      | none => acc
      | some (m1, m2) =>
        match GetModFn m1 preg with
        | none => acc
        | some fn => acc ++ [{ id := m1, fn := some fn, arg := extractArgs m2 }]) []
    let mods1 := if outm = ("j").toList then
        mods0 ++ [{ id := ("jsonEscape").toList, fn := GetModFn (("jsonEscape").toList) preg, arg := [] }]
      else mods0
    let mods2 := if outm = ("q").toList then
        mods1 ++ [{ id := ("jsonQuote").toList, fn := GetModFn (("jsonQuote").toList) preg, arg := [] }]
      else mods1
    let mods3 := if outm = ("h").toList then
        mods2 ++ [{ id := ("htmlEscape").toList, fn := GetModFn (("htmlEscape").toList) preg, arg := [] }]
      else mods2
    let mods4 := if outm = ("u").toList then
        mods3 ++ [{ id := ("urlEncode").toList, fn := GetModFn (("urlEncode").toList) preg, arg := [] }]
      else mods3
    let mods5 := match scanFirst reModPfxFAt outm with
      | some (fc, m2) =>
        if fc = 'f' then
          mods4 ++ [{ id := ("floorPrec").toList, fn := GetModFn (("floorPrec").toList) preg,
                      arg := [{ val := m2, static := true }] }]
        else
          mods4 ++ [{ id := ("ceilPrec").toList, fn := GetModFn (("ceilPrec").toList) preg,
                      arg := [{ val := m2, static := true }] }]
      | none => mods4
    (chunks.headD [], mods5)
  else (t, [])

/-- The print branch of `processCtl`: try `reTplPS`, `reTplP`, `reTplS`
and `reTpl` in order (the plain form demands a literal space after `=`),
returning the value expression with its modifier chain and the literal
prefix/suffix.  `none` when the content is not a print structure. -/
def parsePrint (preg : List (Bytes × Bytes)) (t : Bytes) :
    Option (Bytes × List ModNode × Bytes × Bytes) :=
  match tplModeSplit t with
  | none => none
  | some (outm, rest) =>
    let body := rest.dropWhile isSpaceChar
    match lastSplitPSAux [] none body with
    | some (m2, m3, m4) =>
      let p := extractMods preg m2 outm
      some (p.1, p.2, m3, m4)
    | none =>
      match lastSplitAux pfxToks [] none body with
      | some (m2, m3) =>
        let p := extractMods preg m2 outm
        some (p.1, p.2, m3, [])
      | none =>
        match lastSplitAux sfxToks [] none body with
        | some (m2, m3) =>
          let p := extractMods preg m2 outm
          some (p.1, p.2, [], m3)
        | none =>
          match rest with
          | ' ' :: m2 =>
            let p := extractMods preg (trim m2 ctlTrimAll) outm
            some (p.1, p.2, [], [])
          | _ => none

/-- Positional matcher for `reCtx` =
`(?:context|ctx) (\w+)\s*=\s*([\w.]+)\s*[as]*\s*(\w*)`. -/
def reCtxAt (l : Bytes) : Option (Bytes × Bytes × Bytes) :=
  let kw : Option Bytes :=
    if (("context ").toList).isPrefixOf l then some (l.drop 8)
    else if (("ctx ").toList).isPrefixOf l then some (l.drop 4)
    else none
  match kw with
  | none => none
  | some r0 =>
    let m1 := r0.takeWhile isWordChar
    if m1.isEmpty then none
    else
      match (r0.drop m1.length).dropWhile isSpaceChar with
      | '=' :: r2 =>
        let r3 := r2.dropWhile isSpaceChar
        let m2 := r3.takeWhile (fun c => isWordChar c || c = '.')
        if m2.isEmpty then none
        else
          let r4 := (r3.drop m2.length).dropWhile isSpaceChar
          let r5 := r4.dropWhile (fun c => c = 'a' || c = 's')
          let r6 := r5.dropWhile isSpaceChar
          some (m1, m2, r6.takeWhile isWordChar)
      | _ => none

/-- `reCtx`, unanchored. -/
def reCtxf (t : Bytes) : Option (Bytes × Bytes × Bytes) :=
  scanFirst reCtxAt t

/-- The counter keyword alternation (`(?:counter|cntr) `). -/
def cntrKw (l : Bytes) : Option Bytes :=
  if (("counter ").toList).isPrefixOf l then some (l.drop 8)
  else if (("cntr ").toList).isPrefixOf l then some (l.drop 5)
  else none

/-- Positional matcher for `reCntr` = `(?:counter|cntr) (\w+)`. -/
def reCntrAt (l : Bytes) : Option Bytes :=
  match cntrKw l with
  | some r =>
    let m1 := r.takeWhile isWordChar
    if m1.isEmpty then none else some m1
  | none => none

/-- `reCntr`, unanchored. -/
def reCntrf (t : Bytes) : Option Bytes :=
  scanFirst reCntrAt t

/-- Positional matcher for `reCntrInit` =
`(?:counter|cntr) (\w+)\s*=\s*(\d+)`. -/
def reCntrInitAt (l : Bytes) : Option (Bytes × Bytes) :=
  match cntrKw l with
  | some r =>
    let m1 := r.takeWhile isWordChar
    if m1.isEmpty then none
    else
      match (r.drop m1.length).dropWhile isSpaceChar with
      | '=' :: r2 =>
        let m2 := (r2.dropWhile isSpaceChar).takeWhile isDigitChar
        if m2.isEmpty then none else some (m1, m2)
      | _ => none
  | none => none

/-- `reCntrInit`, unanchored. -/
def reCntrInitf (t : Bytes) : Option (Bytes × Bytes) :=
  scanFirst reCntrInitAt t

/-- Positional matcher for `reCntrOp0` =
`(?:counter|cntr) (\w+)(\+\+|--)`; the boolean is true for `--`. -/
def reCntrOp0At (l : Bytes) : Option (Bytes × Bool) :=
  match cntrKw l with
  | some r =>
    let m1 := r.takeWhile isWordChar
    if m1.isEmpty then none
    else
      match r.drop m1.length with
      | '+' :: '+' :: _ => some (m1, false)
      | '-' :: '-' :: _ => some (m1, true)
      | _ => none
  | none => none

/-- `reCntrOp0`, unanchored. -/
def reCntrOp0f (t : Bytes) : Option (Bytes × Bool) :=
  scanFirst reCntrOp0At t

/-- Positional matcher for `reCntrOp1` =
`(?:counter|cntr) (\w+)(\+\d+|-\d+)`; boolean true for a minus sign,
and the digits of the amount. -/
def reCntrOp1At (l : Bytes) : Option (Bytes × Bool × Bytes) :=
  match cntrKw l with
  | some r =>
    let m1 := r.takeWhile isWordChar
    if m1.isEmpty then none
    else
      match r.drop m1.length with
      | '+' :: r2 =>
        let d := r2.takeWhile isDigitChar
        if d.isEmpty then none else some (m1, false, d)
      | '-' :: r2 =>
        let d := r2.takeWhile isDigitChar
        if d.isEmpty then none else some (m1, true, d)
      | _ => none
  | none => none

/-- `reCntrOp1`, unanchored. -/
def reCntrOp1f (t : Bytes) : Option (Bytes × Bool × Bytes) :=
  scanFirst reCntrOp1At t

/-- Consume the assignment tail `\s*:*=` and return the text after the
`=`. -/
def eatAssign (l : Bytes) : Option Bytes :=
  match (l.dropWhile isSpaceChar).dropWhile (fun c => c = ':') with
  | '=' :: r => some r
  | _ => none

/-- Try binder lengths for the greedy `([^:]+)` of `reLoopRange`, longest
first, such that the remainder carries an assignment tail. -/
def loopM1Go (r0 : Bytes) : Nat → Option (Bytes × Bytes)
  | 0 => none
  | Nat.succ k =>
    match eatAssign (r0.drop (k + 1)) with
    | some r => some (r0.take (k + 1), r)
    | none => loopM1Go r0 k

/-- The binder/assignment split of `reLoopRange`
(`([^:]+)\s*:*=`): the greedy colon-free binder group and the text after
the `=`. -/
def loopM1Split (r0 : Bytes) : Option (Bytes × Bytes) :=
  loopM1Go r0 (r0.takeWhile (fun c => c ≠ ':')).length

/-- Consume the repetitions of `(?:separator|sep)*` (`separator` tried
first at each repetition). -/
def eatSepKwGo : Nat → Bytes → Bytes
  | 0, l => l
  | Nat.succ f, l =>
    if (("separator").toList).isPrefixOf l then eatSepKwGo f (l.drop 9)
    else if (("sep").toList).isPrefixOf l then eatSepKwGo f (l.drop 3)
    else l

/-- `(?:separator|sep)*`. -/
def eatSepKw (l : Bytes) : Bytes :=
  eatSepKwGo l.length l

/-- Positional matcher for `reLoopRange` =
`for ([^:]+)\s*:*=\s*range\s*([^\s]*)\s*(?:separator|sep)*\s*(.*)`. -/
def reLoopRangeAt (l : Bytes) : Option (Bytes × Bytes × Bytes) :=
  if (("for ").toList).isPrefixOf l then
    match loopM1Split (l.drop 4) with
    | none => none
    | some (m1, r) =>
      let r1 := r.dropWhile isSpaceChar
      if (("range").toList).isPrefixOf r1 then
        let r2 := (r1.drop 5).dropWhile isSpaceChar
        let m2 := r2.takeWhile (fun c => !isSpaceChar c)
        let r3 := (r2.drop m2.length).dropWhile isSpaceChar
        let r4 := (eatSepKw r3).dropWhile isSpaceChar
        some (m1, m2, r4)
      else none
  else none

/-- `reLoopRange`, unanchored. -/
def reLoopRangef (t : Bytes) : Option (Bytes × Bytes × Bytes) :=
  scanFirst reLoopRangeAt t

/-- One repetition of the stop-operator group `(<|<=|>|>=|!=)+` of
`reLoopCount`: with the alternation tried in order, a lone `<` or `>`
always wins over `<=`/`>=`. -/
def cmpOpRep (l : Bytes) : Option (Bytes × Bytes) :=
  match l with
  | '<' :: r => some (('<' :: []), r)
  | '>' :: r => some (('>' :: []), r)
  | '!' :: '=' :: r => some (('!' :: '=' :: []), r)
  | _ => none

/-- Consume the repetitions of a repeated group, returning the last
repetition and the rest; `none` when no repetition matches. -/
def repPlus (rep : Bytes → Option (Bytes × Bytes)) : Nat → Bytes →
    Option (Bytes × Bytes)
  | 0, _ => none
  | Nat.succ f, l =>
    match rep l with
    | none => none
    | some (m, r) =>
      match repPlus rep f r with
      | some (m2, r2) => some (m2, r2)
      | none => some (m, r)

/-- One repetition of the step group `(--|\+\+)+`. -/
def stepOpRep (l : Bytes) : Option (Bytes × Bytes) :=
  match l with
  | '-' :: '-' :: r => some (('-' :: '-' :: []), r)
  | '+' :: '+' :: r => some (('+' :: '+' :: []), r)
  | _ => none

/-- Positional matcher for `reLoopCount` =
`for (\w*)\s*:*=\s*(\w+)\s*;\s*\w+\s*(<|<=|>|>=|!=)+\s*([^;]+)\s*;\s*\w*(--|\+\+)+\s*(?:separator|sep)*\s*(.*)`:
counter, init, stop operator (last repetition), limit, step operator
(last repetition) and separator text. -/
def reLoopCountAt (l : Bytes) : Option (Bytes × Bytes × Bytes × Bytes × Bytes × Bytes) :=
  if (("for ").toList).isPrefixOf l then
    let r0 := l.drop 4
    let m1 := r0.takeWhile isWordChar
    match eatAssign (r0.drop m1.length) with
    | none => none
    | some r1 =>
      let r2 := r1.dropWhile isSpaceChar
      let m2 := r2.takeWhile isWordChar
      if m2.isEmpty then none
      else
        match (r2.drop m2.length).dropWhile isSpaceChar with
        | ';' :: r3 =>
          let r4 := r3.dropWhile isSpaceChar
          let w := r4.takeWhile isWordChar
          if w.isEmpty then none
          else
            let r5 := (r4.drop w.length).dropWhile isSpaceChar
            match repPlus cmpOpRep r5.length r5 with
            | none => none
            | some (m3, r6) =>
              let r7 := r6.dropWhile isSpaceChar
              let m4 := r7.takeWhile (fun c => c ≠ ';')
              if m4.isEmpty then none
              else
                match r7.drop m4.length with
                | ';' :: r8 =>
                  let r9 := r8.dropWhile isSpaceChar
                  let w2 := r9.takeWhile isWordChar
                  let r10 := r9.drop w2.length
                  match repPlus stepOpRep r10.length r10 with
                  | none => none
                  | some (m5, r11) =>
                    let r12 := (eatSepKw (r11.dropWhile isSpaceChar)).dropWhile isSpaceChar
                    some (m1, m2, m3, m4, m5, r12)
                | _ => none
        | _ => none
  else none

/-- `reLoopCount`, unanchored. -/
def reLoopCountf (t : Bytes) :
    Option (Bytes × Bytes × Bytes × Bytes × Bytes × Bytes) :=
  scanFirst reLoopCountAt t

/-- `reSwitch` = `^switch\s*(.*)` (anchored): the discriminant text. -/
def reSwitchf (t : Bytes) : Option Bytes :=
  if (("switch").toList).isPrefixOf t then some ((t.drop 6).dropWhile isSpaceChar)
  else none

/-- One pass of comment stripping (`reCutComments` =
`\t*{#[^#]*#}\n*`, replaced by nothing): at a match — leading tabs, the
comment opener, content free of `#`, the closer, trailing newlines — the
whole region is dropped; otherwise one character is emitted. -/
def cutCommentsGo : Nat → Bytes → Bytes
  | 0, l => l
  | Nat.succ f, l =>
    match l with
    | [] => []
    | c :: rest =>
      let tabs := (c :: rest).takeWhile (fun d => d = '\t')
      match (c :: rest).drop tabs.length with
      | '{' :: '#' :: r2 =>
        let content := r2.takeWhile (fun d => d ≠ '#')
        match r2.drop content.length with
        | '#' :: '}' :: r3 => cutCommentsGo f (r3.dropWhile (fun d => d = '\n'))
        | _ => c :: cutCommentsGo f rest
      | _ => c :: cutCommentsGo f rest

/-- `Parser.cutComments`. -/
def cutComments (l : Bytes) : Bytes :=
  cutCommentsGo l.length l

/-- One pass of whitespace normalization (`reCutFmt` = `\n+\t*\s*`,
replaced by nothing). -/
def cutFmtGo : Nat → Bytes → Bytes
  | 0, l => l
  | Nat.succ f, l =>
    match l with
    | [] => []
    | c :: rest =>
      if c = '\n' then
        let r1 := (c :: rest).dropWhile (fun d => d = '\n')
        let r2 := r1.dropWhile (fun d => d = '\t')
        cutFmtGo f (r2.dropWhile isSpaceChar)
      else c :: cutFmtGo f rest

/-- `Parser.cutFmt`: collapse newline runs, then trim formatting
characters from both ends. -/
def cutFmt (l : Bytes) : Bytes :=
  trim (cutFmtGo l.length l) noFmt

/-- The parser's mutable state (`Parser` struct): the three nesting
counters for conditions, loops and switches. -/
structure PState where
  cc : Int := 0
  cl : Int := 0
  cs : Int := 0
  deriving DecidableEq

/-- A depth snapshot (`target`). -/
structure Target where
  cond : Int
  loop : Int
  sw : Int
  deriving DecidableEq

/-- `newTarget`: snapshot the current counters. -/
def newTarget (p : PState) : Target :=
  { cond := p.cc, loop := p.cl, sw := p.cs }

/-- `target.reached`: the live counters equal the snapshot. -/
def Target.reached (t : Target) (p : PState) : Bool :=
  t.cond == p.cc && t.loop == p.cl && t.sw == p.cs

/-- `target.eqZero`: the snapshot is the root snapshot. -/
def Target.eqZero (t : Target) : Bool :=
  t.cond == 0 && t.loop == 0 && t.sw == 0

/-- Result of `parseTpl`: nodes, offset, error, parser state. -/
structure PRes where
  nodes : List Node
  off : Nat
  err : Option Err
  st : PState

/-- Result of `processCtl`: nodes, offset, bubble-up flag, error, parser
state. -/
structure CRes where
  nodes : List Node
  off : Nat
  up : Bool
  err : Option Err
  st : PState

/-- The conditional-children builder of `processCtl`: the first split
segment becomes the true branch, the second — when present — the false
branch; segments after a second divider are not consulted. -/
def buildCondChildren (split : List (List Node)) : List Node :=
  match split with
  | [] => []
  | [a] => [Node.mk { typ := TypeCondTrue, child := a }]
  | a :: b :: _ =>
    [Node.mk { typ := TypeCondTrue, child := a },
     Node.mk { typ := TypeCondFalse, child := b }]

/-- Classification of one control region's trimmed content: the branch of
`processCtl` that fires, with the node fields that branch assigns. -/
inductive CtlKind where
  | printK : NodeData Node → CtlKind
  | ctxK : NodeData Node → CtlKind
  | counterK : NodeData Node → CtlKind
  | condHelperK : NodeData Node → CtlKind
  | condComplexK : CtlKind
  | condK : NodeData Node → CtlKind
  | divK : CtlKind
  | endifK : CtlKind
  | loopRangeK : NodeData Node → CtlKind
  | loopCountK : NodeData Node → CtlKind
  | loopParseErrK : CtlKind
  | endforK : CtlKind
  | breakK : CtlKind
  | continueK : CtlKind
  | switchK : NodeData Node → CtlKind
  | caseK : NodeData Node → CtlKind
  | defaultK : CtlKind
  | endswitchK : CtlKind
  | exitK : CtlKind
  | badK : CtlKind

/-- The condition fields assigned by `parseCondExpr` on a fresh node. -/
def condFields (t : Bytes) : NodeData Node :=
  let p := parseCondExpr t
  { typ := TypeCond, condL := p.1, condR := p.2.1, condLStatic := p.2.2.1,
    condRStatic := p.2.2.2.1, condOp := p.2.2.2.2 }

/-- The range-loop fields of `processCtl` (key/value split on a comma, a
`_` key dropped). -/
def rangeFields (m1 m2 m3 : Bytes) : NodeData Node :=
  let base : NodeData Node := { typ := TypeLoopRange, loopSrc := m2, loopSep := m3 }
  if m1.contains ',' then
    let kv := m1.splitOn ','
    let k := trim (kv.headD []) spaceB
    { base with loopKey := if k = ('_' :: []) then [] else k,
                loopVal := trim (kv.getD 1 []) spaceB }
  else { base with loopKey := trim m1 spaceB }

/-- The counting-loop fields of `processCtl`. -/
def countFields (m1 m2 m3 m4 m5 m6 : Bytes) : NodeData Node :=
  { typ := TypeLoopCount, loopCnt := m1, loopCntInit := m2,
    loopCntStatic := isStatic m2, loopCondOp := parseOp m3, loopLim := m4,
    loopLimStatic := isStatic m4, loopCntOp := parseOp m5, loopSep := m6 }

/-- The case fields assigned by `parseCaseExpr` on a fresh node. -/
def caseFields (t : Bytes) : NodeData Node :=
  let p := parseCaseExpr t
  { typ := TypeCase, caseL := p.1, caseR := p.2.1, caseLStatic := p.2.2.1,
    caseRStatic := p.2.2.2.1, caseOp := p.2.2.2.2 }

/-- The counter fields of `processCtl`: the initializer form, the `++`/`--`
form, the `+N`/`-N` form, or a bare counter node when no sub-pattern
matches. -/
def counterFields (t : Bytes) : NodeData Node :=
  match reCntrInitf t with
  | some (v, d) =>
    { typ := TypeCounter, cntrVar := v, cntrInitF := true, cntrInit := bytesToInt d }
  | none =>
    match reCntrOp0f t with
    | some (v, dec) =>
      { typ := TypeCounter, cntrVar := v, cntrOp := if dec then OpDec else OpInc,
        cntrOpArg := 1 }
    | none =>
      match reCntrOp1f t with
      | some (v, dec, d) =>
        { typ := TypeCounter, cntrVar := v, cntrOp := if dec then OpDec else OpInc,
          cntrOpArg := bytesToInt d }
      | none => { typ := TypeCounter }

/-- The pattern chain of `processCtl`, in source order: print, context,
counter, conditional (complexity check, then helper-call rescue),
else/endif, loops and their terminators, switch constructs, exit; anything
else is a bad control structure. -/
def classifyCtl (preg : List (Bytes × Bytes)) (t : Bytes) : CtlKind :=
  match parsePrint preg t with
  | some (raw, mods, px, sx) =>
    CtlKind.printK { typ := TypeTpl, raw := raw, mod := mods, pfx := px, sfx := sx }
  | none =>
  match reCtxf t with
  | some (m1, m2, m3) =>
    CtlKind.ctxK
      { typ := TypeCtx, ctxVar := m1, ctxSrc := m2, ctxSrcStatic := isStatic m2,
        ctxIns := if m3.length > 0 then m3 else ("static").toList }
  | none =>
  if (reCntrf t).isSome then CtlKind.counterK (counterFields t)
  else if reCondMatch t then
    if reCondComplexMatch t then
      match reCondHelperf t with
      | some (m1, m2) =>
        CtlKind.condHelperK { condFields t with condHlp := m1, condHlpArg := extractArgs m2 }
      | none => CtlKind.condComplexK
    else CtlKind.condK (condFields t)
  else if t = ("else").toList then CtlKind.divK
  else if t = ("endif").toList then CtlKind.endifK
  else if containsSub t (("for ").toList) then
    match reLoopRangef t with
    | some (m1, m2, m3) => CtlKind.loopRangeK (rangeFields m1 m2 m3)
    | none =>
      match reLoopCountf t with
      | some (m1, m2, m3, m4, m5, m6) => CtlKind.loopCountK (countFields m1 m2 m3 m4 m5 m6)
      | none => CtlKind.loopParseErrK
  else if t = ("endfor").toList then CtlKind.endforK
  else if t = ("break").toList then CtlKind.breakK
  else if t = ("continue").toList then CtlKind.continueK
  else
  match reSwitchf t with
  | some arg => CtlKind.switchK { typ := TypeSwitch, switchArg := arg }
  | none =>
  if (reSwitchCasef t).isSome then CtlKind.caseK (caseFields t)
  else if t = ("default").toList then CtlKind.defaultK
  else if t = ("endswitch").toList then CtlKind.endswitchK
  else if t = ("exit").toList then CtlKind.exitK
  else CtlKind.badK

mutual

/-- `Parser.parseTpl`: walk the template from offset `i`, collecting
literal spans and control regions, until the live counters return to the
snapshot (unless the snapshot is the root one), end of input, an error,
or a bubble-up from a terminator. -/
def parseTpl (preg : List (Bytes × Bytes)) (tpl : Bytes) (fuel : Nat)
    (st : PState) (nodes : List Node) (o i : Nat) (inCtl : Bool)
    (tgt : Target) : PRes :=
  match fuel with
  | 0 => { nodes := nodes, off := o, err := some Err.fuelOut, st := st }
  | Nat.succ f =>
    if Target.reached tgt st && !(Target.eqZero tgt) then
      { nodes := nodes, off := o, err := none, st := st }
    else
      match indexAt tpl ctlOpen i with
      | none =>
        if inCtl then { nodes := nodes, off := o, err := some Err.unexpectedEOF, st := st }
        else { nodes := addRaw nodes (tpl.drop o), off := tpl.length, err := none, st := st }
      | some i2 =>
        if inCtl then
          match indexAt tpl ctlClose i2 with
          | none => { nodes := nodes, off := o, err := some Err.unexpectedEOF, st := st }
          | some e0 =>
            let e := e0 + 2
            let q := processCtl preg tpl f st nodes ((tpl.drop o).take (e - o)) o
            match q.err with
            | some e2 => { nodes := q.nodes, off := o, err := some e2, st := q.st }
            | none =>
              if q.up then { nodes := q.nodes, off := q.off, err := none, st := q.st }
              else parseTpl preg tpl f q.st q.nodes q.off q.off false tgt
        else
          parseTpl preg tpl f st (addRaw nodes ((tpl.drop o).take (i2 - o))) i2 i2 true tgt
termination_by structural fuel

/-- `Parser.processCtl`: classify one control region and either append a
leaf node, recurse for a nested body (condition, loop, switch), or signal
a terminator by decrementing the counter and bubbling up. -/
def processCtl (preg : List (Bytes × Bytes)) (tpl : Bytes) (fuel : Nat)
    (st : PState) (nodes : List Node) (ctl : Bytes) (pos : Nat) : CRes :=
  match fuel with
  | 0 => { nodes := nodes, off := pos, up := false, err := some Err.fuelOut, st := st }
  | Nat.succ f =>
    let t := trim ctl ctlTrim
    match classifyCtl preg t with
    | CtlKind.printK nd =>
      { nodes := addNode nodes (Node.mk nd), off := pos + ctl.length,
        up := false, err := none, st := st }
    | CtlKind.ctxK nd =>
      { nodes := addNode nodes (Node.mk nd), off := pos + ctl.length,
        up := false, err := none, st := st }
    | CtlKind.counterK nd =>
      { nodes := addNode nodes (Node.mk nd), off := pos + ctl.length,
        up := false, err := none, st := st }
    | CtlKind.condHelperK nd =>
      let tgt2 := newTarget st
      let st2 := { st with cc := st.cc + 1 }
      let pr := parseTpl preg tpl f st2 [] (pos + ctl.length) (pos + ctl.length) false tgt2
      { nodes := addNode nodes (Node.mk { nd with child := buildCondChildren (splitNodes pr.nodes) }),
        off := pr.off, up := false, err := pr.err, st := pr.st }
    | CtlKind.condComplexK =>
      { nodes := nodes, off := pos, up := false, err := some Err.condComplex, st := st }
    | CtlKind.condK nd =>
      let tgt2 := newTarget st
      let st2 := { st with cc := st.cc + 1 }
      let pr := parseTpl preg tpl f st2 [] (pos + ctl.length) (pos + ctl.length) false tgt2
      { nodes := addNode nodes (Node.mk { nd with child := buildCondChildren (splitNodes pr.nodes) }),
        off := pr.off, up := false, err := pr.err, st := pr.st }
    | CtlKind.divK =>
      { nodes := addNode nodes (Node.mk { typ := TypeDiv }), off := pos + ctl.length,
        up := false, err := none, st := st }
    | CtlKind.endifK =>
      { nodes := nodes, off := pos + ctl.length, up := true, err := none,
        st := { st with cc := st.cc - 1 } }
    | CtlKind.loopRangeK nd =>
      let tgt2 := newTarget st
      let st2 := { st with cl := st.cl + 1 }
      let pr := parseTpl preg tpl f st2 [] (pos + ctl.length) (pos + ctl.length) false tgt2
      { nodes := addNode nodes (Node.mk { nd with child := pr.nodes }),
        off := pr.off, up := false, err := pr.err, st := pr.st }
    | CtlKind.loopCountK nd =>
      let tgt2 := newTarget st
      let st2 := { st with cl := st.cl + 1 }
      let pr := parseTpl preg tpl f st2 [] (pos + ctl.length) (pos + ctl.length) false tgt2
      { nodes := addNode nodes (Node.mk { nd with child := pr.nodes }),
        off := pr.off, up := false, err := pr.err, st := pr.st }
    | CtlKind.loopParseErrK =>
      { nodes := nodes, off := 0, up := false, err := some Err.loopParse, st := st }
    | CtlKind.endforK =>
      { nodes := nodes, off := pos + ctl.length, up := true, err := none,
        st := { st with cl := st.cl - 1 } }
    | CtlKind.breakK =>
      { nodes := addNode nodes (Node.mk { typ := TypeBreak }), off := pos + ctl.length,
        up := false, err := none, st := st }
    | CtlKind.continueK =>
      { nodes := addNode nodes (Node.mk { typ := TypeContinue }), off := pos + ctl.length,
        up := false, err := none, st := st }
    | CtlKind.switchK nd =>
      let tgt2 := newTarget st
      let st2 := { st with cs := st.cs + 1 }
      let pr := parseTpl preg tpl f st2 [] (pos + ctl.length) (pos + ctl.length) false tgt2
      { nodes := addNode nodes (Node.mk { nd with child := rollupSwitchNodes pr.nodes }),
        off := pr.off, up := false, err := pr.err, st := pr.st }
    | CtlKind.caseK nd =>
      { nodes := addNode nodes (Node.mk nd), off := pos + ctl.length,
        up := false, err := none, st := st }
    | CtlKind.defaultK =>
      { nodes := addNode nodes (Node.mk { typ := TypeDefault }), off := pos + ctl.length,
        up := false, err := none, st := st }
    | CtlKind.endswitchK =>
      { nodes := nodes, off := pos + ctl.length, up := true, err := none,
        st := { st with cs := st.cs - 1 } }
    | CtlKind.exitK =>
      { nodes := addNode nodes (Node.mk { typ := TypeExit }), off := pos + ctl.length,
        up := false, err := none, st := st }
    | CtlKind.badK =>
      { nodes := nodes, off := 0, up := false, err := some Err.unknownCtlParse, st := st }
termination_by structural fuel

end

/-- `Parse`: strip comments, normalize formatting unless `keepFmt`, then
parse from the root snapshot.  The fuel is an embedding artifact, chosen
ample for the input's length. -/
def Parse (preg : List (Bytes × Bytes)) (tpl : Bytes) (keepFmt : Bool) :
    Tree × Option Err :=
  let t1 := cutComments tpl
  let t2 := if keepFmt then t1 else cutFmt t1
  let st0 : PState := {}
  let pr := parseTpl preg t2 (4 * t2.length + 16) st0 [] 0 0 false (newTarget st0)
  ({ nodes := pr.nodes }, pr.err)

/-- An oracle environment for concrete evaluations: resolution yields nil,
every comparison is false, conversion stringifies byte and string values,
modifiers are identities, no range elements, no counting-loop iterations. -/
def env0 : Env where
  getSsc := fun _ _ _ => (Val.vNil, none)
  cmp := fun _ _ _ _ => (false, none)
  anyToBytes := fun v =>
    (match v with
     | Val.vBytes b => (b, none)
     | Val.vStr s => (s, none)
     | _ => ([], none))
  callMod := fun _ _ v _ => (v, none)
  getInspector := fun _ => none
  rangeElems := fun _ _ => []
  cloopInit := fun _ _ _ => 0
  cloopLim := fun _ _ _ => 0
  cloopCmp := fun _ _ _ => false

/-- The conditional of C1's failing input: dynamic `a` compared with the
static literal `1`, true branch printing `T`, false branch printing `F`. -/
def condTFNode : Node := Node.mk {
  typ := TypeCond
  condL := ("a").toList
  condR := ("1").toList
  condRStatic := true
  condOp := OpEq
  child := [Node.mk { typ := TypeCondTrue, child := [Node.mk { typ := TypeRaw, raw := ("T").toList }] },
            Node.mk { typ := TypeCondFalse, child := [Node.mk { typ := TypeRaw, raw := ("F").toList }] }]
}

/-- C1: for the conditional `{% if a == b %}T{% else %}F{% endif %}` with a
false comparison (the `env0` comparator answers false) and both branch
children present, `renderNode` writes `T` — the true branch — because the
false-branch arm of the source renders `node.child[0]` instead of
`node.child[1]`.  The claim says `F` is rendered; the code renders the
first child in both arms. -/
theorem cond_false_comparison_renders_first_child :
    renderNode env0 5 condTFNode {} = (("T").toList, {}, none) := by rfl

/-- A conditional node with the given operands, static flags, operator and
children. -/
def mkCondNode (l r : Bytes) (sl sr : Bool) (op : Op) (children : List Node) : Node :=
  Node.mk { typ := TypeCond, condL := l, condR := r, condLStatic := sl,
            condRStatic := sr, condOp := op, child := children }

/-- C8: `Op.Swap` maps `>` to `<`, `>=` to `<=`, `<` to `>`, `<=` to `>=`
and leaves every other operator (including `==` and `!=`) unchanged; and a
conditional whose only static operand is on the left renders identically
to the same condition with the operands exchanged and the operator
swapped — the renderer issues the same comparison call, so operand order
does not change the result. -/
theorem swap_op_and_static_left_dispatch :
    (Op.Swap OpGt = OpLt ∧ Op.Swap OpGtq = OpLtq ∧ Op.Swap OpLt = OpGt ∧
     Op.Swap OpLtq = OpGtq) ∧
    (∀ o : Op, o ≠ OpGt → o ≠ OpGtq → o ≠ OpLt → o ≠ OpLtq → Op.Swap o = o) ∧
    (∀ (env : Env) (fuel : Nat) (ctx : Ctx) (s d : Bytes) (op : Op)
       (children : List Node),
       renderNode env fuel (mkCondNode s d true false op children) ctx =
       renderNode env fuel (mkCondNode d s false true (Op.Swap op) children) ctx) := by
  refine ⟨⟨by decide, by decide, by decide, by decide⟩, ?_, ?_⟩
  · intro o h1 h2 h3 h4
    simp [Op.Swap, h1, h2, h3, h4]
  · intro env fuel ctx s d op children
    match fuel with
    | 0 => rfl
    | Nat.succ f =>
      simp only [renderNode, mkCondNode, Node.typ, Node.data, Node.condLStatic,
        Node.condRStatic, Node.condL, Node.condR, Node.condOp, Node.child]
      norm_num [TypeRaw, TypeTpl, TypeCtx, TypeCond]

/-- C8 witness: the swap theorem applied at `==` and at concrete operands
with the `>` operator. -/
theorem swap_op_and_static_left_dispatch_witness :
    Op.Swap OpEq = OpEq ∧
    renderNode env0 3 (mkCondNode (("5").toList) (("x").toList) true false OpGt []) {} =
    renderNode env0 3 (mkCondNode (("x").toList) (("5").toList) false true (Op.Swap OpGt) []) {} :=
  ⟨swap_op_and_static_left_dispatch.2.1 OpEq (by decide) (by decide) (by decide) (by decide),
   swap_op_and_static_left_dispatch.2.2 env0 3 {} (("5").toList) (("x").toList) OpGt []⟩

/-- C10: after `RegisterModFn name alias fn`, `GetModFn` yields the
function under the name, and under the alias as well when the alias is
non-empty; with an empty alias every other key is untouched; and
`GetModFn` yields the nil result for any key that is not in the
registry. -/
theorem registerModFn_getModFn_lookup {A : Type} :
    (∀ (reg : List (Bytes × A)) (name aliasName : Bytes) (fn : A),
       GetModFn name (RegisterModFn name aliasName fn reg) = some fn) ∧
    (∀ (reg : List (Bytes × A)) (name aliasName : Bytes) (fn : A),
       aliasName ≠ [] →
       GetModFn aliasName (RegisterModFn name aliasName fn reg) = some fn) ∧
    (∀ (reg : List (Bytes × A)) (name : Bytes) (fn : A) (k : Bytes), k ≠ name →
       GetModFn k (RegisterModFn name [] fn reg) = GetModFn k reg) ∧
    (∀ (k : Bytes) (reg : List (Bytes × A)), (∀ v : A, (k, v) ∉ reg) →
       GetModFn k reg = none) := by
  refine ⟨?_, ?_, ?_, ?_⟩
  · intro reg name al fn
    by_cases h2 : al = name
    · subst h2
      unfold RegisterModFn
      split <;> simp [GetModFn, mapAssign, mapGet]
    · unfold RegisterModFn
      split <;> simp [GetModFn, mapAssign, mapGet, h2]
  · intro reg name al fn h
    have h1 : al.length > 0 := List.length_pos.mpr h
    simp [RegisterModFn, GetModFn, mapAssign, mapGet, h1]
  · intro reg name fn k hk
    have hk2 : name ≠ k := fun h => hk h.symm
    simp [RegisterModFn, GetModFn, mapAssign, mapGet, hk2]
  · intro k reg
    induction reg with
    | nil => intro _; rfl
    | cons p rest ih =>
      intro h
      match p with
      | (k2, v) =>
        have hne : k2 ≠ k := by
          intro he
          exact h v (by simp [he])
        simp [GetModFn, mapGet, hne]
        exact ih (fun v2 hv => h v2 (by simp [hv]))

/-- C10 witness: a registration with a non-empty alias resolves under the
alias, and lookup in the empty registry yields the nil result. -/
theorem registerModFn_getModFn_lookup_witness :
    GetModFn (("def").toList) (RegisterModFn (("default").toList) (("def").toList) (1 : Nat) []) = some 1 ∧
    GetModFn (("zz").toList) ([] : List (Bytes × Nat)) = none :=
  ⟨(registerModFn_getModFn_lookup (A := Nat)).2.1 [] (("default").toList) (("def").toList) 1 (by decide),
   (registerModFn_getModFn_lookup (A := Nat)).2.2.2 (("zz").toList) [] (by simp)⟩

/-- The claim-side rollup of one open group: absorb the run of
non-Case/Default siblings; at the next Case/Default emit the group and
open a new one; at the end keep the final group only when it absorbed
something (the amendment). -/
def rollupGroups (cur : Node) : List Node → List Node
  | [] => if cur.child.isEmpty then [] else [cur]
  | n :: rest =>
    if isCaseOrDefault n then cur :: rollupGroups n rest
    else rollupGroups (cur.withChild (cur.child ++ [n])) rest

/-- The claim-side description of the switch rollup, amended: leading
non-Case/Default content is dropped, every Case/Default heads a group
absorbing the following run of non-Case/Default siblings, and a final
Case/Default with an empty child list is dropped. -/
def rollupSwitchSpec : List Node → List Node
  | [] => []
  | n :: rest => if isCaseOrDefault n then rollupGroups n rest else rollupSwitchSpec rest

/-- Replacing the child list preserves the tag. -/
theorem withChild_typ (n : Node) (c : List Node) : (n.withChild c).typ = n.typ := by
  cases n
  rfl

/-- A Case/Default node never carries the sentinel tag. -/
theorem isCD_typ_ne (n : Node) (h : isCaseOrDefault n = true) : n.typ ≠ -1 := by
  simp only [isCaseOrDefault, Bool.or_eq_true, decide_eq_true_eq] at h
  rcases h with h | h <;> rw [h] <;> decide

/-- The rollup loop with an open Case/Default group computes that group's
claim-side rollup. -/
theorem rollupLoop_group (ns : List Node) : ∀ (r : List Node) (g : Node),
    isCaseOrDefault g = true →
    rollupFin (rollupLoop r g ns) = r ++ rollupGroups g ns := by
  induction ns with
  | nil =>
    intro r g _
    cases hc : g.child with
    | nil => simp [rollupLoop, rollupFin, rollupGroups, hc]
    | cons a as => simp [rollupLoop, rollupFin, rollupGroups, hc]
  | cons n rest ih =>
    intro r g hg
    have hne : g.typ ≠ -1 := isCD_typ_ne g hg
    by_cases hn : isCaseOrDefault n = true
    · have e1 : rollupLoop r g (n :: rest) = rollupLoop (r ++ [g]) n rest := by
        simp only [rollupLoop]
        rw [if_neg (by simp [hn]), if_pos (by simp [hn]), if_pos hne]
      rw [e1, ih (r ++ [g]) n hn]
      simp [rollupGroups, hn]
    · have e1 : rollupLoop r g (n :: rest) =
          rollupLoop r (g.withChild (g.child ++ [n])) rest := by
        simp only [rollupLoop]
        rw [if_neg (fun hh => hne hh.2), if_neg (by simp [hn])]
      have hg2 : isCaseOrDefault (g.withChild (g.child ++ [n])) = true := by
        simpa [isCaseOrDefault, withChild_typ] using hg
      rw [e1, ih r _ hg2]
      simp [rollupGroups, hn]

/-- The rollup loop from the sentinel group computes the claim-side
rollup. -/
theorem rollupLoop_root (ns : List Node) : ∀ r : List Node,
    rollupFin (rollupLoop r (Node.mk { typ := -1 }) ns) = r ++ rollupSwitchSpec ns := by
  induction ns with
  | nil =>
    intro r
    simp [rollupLoop, rollupFin, rollupSwitchSpec, Node.child, Node.data]
  | cons n rest ih =>
    intro r
    by_cases hn : isCaseOrDefault n = true
    · have e1 : rollupLoop r (Node.mk { typ := -1 }) (n :: rest) = rollupLoop r n rest := by
        simp only [rollupLoop]
        rw [if_neg (by simp [hn, Node.typ, Node.data]), if_pos (by simp [hn]),
            if_neg (by simp [Node.typ, Node.data])]
      rw [e1, rollupLoop_group rest r n hn]
      simp [rollupSwitchSpec, hn]
    · have e1 : rollupLoop r (Node.mk { typ := -1 }) (n :: rest) =
          rollupLoop r (Node.mk { typ := -1 }) rest := by
        simp only [rollupLoop]
        rw [if_pos (by simp [hn, Node.typ, Node.data])]
      rw [e1, ih r]
      simp [rollupSwitchSpec, hn]

/-- C5 counterexample: a parsed switch body consisting of a single Case
node (as produced for `{% switch x %}{% case 1 %}{% endswitch %}`) rolls
up to the empty group list — the trailing Case yields no group of its own,
contradicting the claim that every Case/Default yields one. -/
theorem rollup_drops_trailing_childless_case :
    rollupSwitchNodes [Node.mk { typ := TypeCase, caseL := ("1").toList, caseLStatic := true }] = [] := by
  rfl

/-- C5 amended: the rollup produces one group per Case/Default node in
order — nodes before the first Case/Default are dropped and each group's
child list is exactly the following run of non-Case/Default siblings —
except that a final Case/Default whose child list stayed empty is dropped
from the result. -/
theorem rollupSwitchNodes_eq_spec (ns : List Node) :
    rollupSwitchNodes ns = rollupSwitchSpec ns := by
  cases ns with
  | nil => rfl
  | cons n rest =>
    have := rollupLoop_root (n :: rest) []
    simpa [rollupSwitchNodes] using this

/-- The C4 counterexample source: a conditional body with two top-level
else dividers. -/
def twoDivSrc : Bytes := ("{% if a == b %}A{% else %}B{% else %}C{% endif %}").toList

/-- C4 counterexample: parsing a conditional whose body holds two top-level
else dividers succeeds (no parse error, contradicting the claim that a
third divider is a parse error); the Cond node keeps exactly the true and
false branches, the third segment being silently discarded. -/
theorem parse_second_divider_is_not_an_error :
    (Parse [] twoDivSrc false).2 = none ∧
    ((Parse [] twoDivSrc false).1.nodes.map (fun n => n.child.map Node.typ)) =
      [[TypeCondTrue, TypeCondFalse]] := by
  exact ⟨by rfl, by rfl⟩

/-- A divider node, as built for `{% else %}`. -/
def divNode : Node := Node.mk { typ := TypeDiv }

/-- C4 amended: every Cond node produced by the parser has at most two
children, obtained by splitting the flat body at top-level dividers — the
first segment wrapped as the true branch, the second as the optional false
branch; a body with two or more dividers is NOT a parse error: segments
after the second divider are silently discarded. -/
theorem cond_children_at_most_two :
    (∀ sub : List Node, (buildCondChildren (splitNodes sub)).length ≤ 2) ∧
    (∀ a : Node, a.typ ≠ TypeDiv →
       buildCondChildren (splitNodes [a]) = [Node.mk { typ := TypeCondTrue, child := [a] }]) ∧
    (∀ a b c : Node, a.typ ≠ TypeDiv → b.typ ≠ TypeDiv → c.typ ≠ TypeDiv →
       buildCondChildren (splitNodes [a, divNode, b, divNode, c]) =
         [Node.mk { typ := TypeCondTrue, child := [a] },
          Node.mk { typ := TypeCondFalse, child := [b] }]) := by
  refine ⟨?_, ?_, ?_⟩
  · intro sub
    unfold buildCondChildren
    split <;> simp
  · intro a ha
    cases a with
    | mk da =>
      simp only [Node.typ, Node.data] at ha
      simp [splitNodes, splitNodesAux, ha, buildCondChildren, Node.typ, Node.data]
  · intro a b c ha hb hc
    cases a with
    | mk da =>
      cases b with
      | mk db =>
        cases c with
        | mk dc =>
          simp only [Node.typ, Node.data] at ha hb hc
          simp [splitNodes, splitNodesAux, ha, hb, hc, divNode, Node.typ, Node.data,
            buildCondChildren]

/-- A plain raw text node, not a divider. -/
def rawANode : Node := Node.mk { typ := TypeRaw, raw := ("A").toList }

/-- C4 witness: the amended theorem at a concrete one-node body and at a
concrete two-divider body. -/
theorem cond_children_at_most_two_witness :
    (buildCondChildren (splitNodes [rawANode])).length ≤ 2 ∧
    buildCondChildren (splitNodes [rawANode]) =
      [Node.mk { typ := TypeCondTrue, child := [rawANode] }] ∧
    buildCondChildren (splitNodes [rawANode, divNode, rawANode, divNode, rawANode]) =
      [Node.mk { typ := TypeCondTrue, child := [rawANode] },
       Node.mk { typ := TypeCondFalse, child := [rawANode] }] :=
  ⟨cond_children_at_most_two.1 [rawANode],
   cond_children_at_most_two.2.1 rawANode (by decide),
   cond_children_at_most_two.2.2 rawANode rawANode rawANode (by decide) (by decide) (by decide)⟩

/-- Unfold: the driver on an empty element list. -/
theorem rloopDrive_nil (env : Env) (f : Nat) (node : Node) (c : Nat) (ctx : Ctx) :
    rloopDrive env f node [] c ctx = ([], ctx) := by
  cases f <;> rfl

/-- Unfold: the driver out of fuel. -/
theorem rloopDrive_zero (env : Env) (node : Node) (k v : Val)
    (rest : List (Val × Val)) (c : Nat) (ctx : Ctx) :
    rloopDrive env 0 node ((k, v) :: rest) c ctx = ([], ctx) := rfl

/-- Unfold: one driver step. -/
theorem rloopDrive_cons (env : Env) (f : Nat) (node : Node) (k v : Val)
    (rest : List (Val × Val)) (c : Nat) (ctx : Ctx) :
    rloopDrive env (f + 1) node ((k, v) :: rest) c ctx =
      (let ctx2 := (if node.loopKey.length > 0 then ctx.set node.loopKey k else ctx).set node.loopVal v
       let sep := if c > 0 ∧ node.loopSep.length > 0 then node.loopSep else []
       let p := iterateBody env f node.child ctx2
       match p.2.2 with
       | LoopCtl.brk => (sep ++ p.1, p.2.1)
       | _ =>
         let q := rloopDrive env f node rest (c + 1) p.2.1
         (sep ++ p.1 ++ q.1, q.2)) := rfl


/-- The per-iteration body outputs of a range loop: what each call of
`RangeLoop.Iterate` writes past its separator, in order, stopping after a
break. -/
def rloopBodies (env : Env) (fuel : Nat) (node : Node) :
    List (Val × Val) → Ctx → List Bytes × Ctx
  | [], ctx => ([], ctx)
  | (k, v) :: rest, ctx =>
    match fuel with
    | 0 => ([], ctx)
    | Nat.succ f =>
      let ctx2 := (if node.loopKey.length > 0 then ctx.set node.loopKey k else ctx).set node.loopVal v
      let p := iterateBody env f node.child ctx2
      match p.2.2 with
      | LoopCtl.brk => ([p.1], p.2.1)
      | _ =>
        let q := rloopBodies env f node rest p.2.1
        (p.1 :: q.1, q.2)

/-- Each piece prefixed by the separator, concatenated. -/
def joinLead (s : Bytes) (bs : List Bytes) : Bytes :=
  (bs.map (fun b => s ++ b)).flatten

/-- Pieces joined by the separator between consecutive elements — none
leading, none trailing. -/
def sepJoin (s : Bytes) : List Bytes → Bytes
  | [] => []
  | [b] => b
  | b :: b2 :: rest => b ++ s ++ sepJoin s (b2 :: rest)

/-- Peeling the first piece off a separator join. -/
theorem sepJoin_cons (s b : Bytes) (bs : List Bytes) :
    sepJoin s (b :: bs) = b ++ joinLead s bs := by
  induction bs generalizing b with
  | nil => simp [sepJoin, joinLead]
  | cons b2 rest ih =>
    rw [sepJoin, ih b2]
    simp [joinLead]

/-- With a positive counter the separator guard always emits the
separator (an empty separator writes nothing either way). -/
theorem sep_ite_pos (c : Nat) (s : Bytes) :
    (if c + 1 > 0 ∧ s.length > 0 then s else []) = s := by
  cases s <;> simp

/-- From a positive counter on, every iteration is preceded by the
separator. -/
theorem rloopDrive_pos (env : Env) (node : Node) :
    ∀ (elems : List (Val × Val)) (f : Nat) (c : Nat) (ctx : Ctx),
    rloopDrive env f node elems (c + 1) ctx =
      (joinLead node.loopSep (rloopBodies env f node elems ctx).1,
       (rloopBodies env f node elems ctx).2) := by
  intro elems
  induction elems with
  | nil =>
    intro f c ctx
    rw [rloopDrive_nil]
    simp [rloopBodies, joinLead]
  | cons e rest ih =>
    intro f c ctx
    obtain ⟨k, v⟩ := e
    match f with
    | 0 =>
      rw [rloopDrive_zero]
      simp [rloopBodies, joinLead]
    | Nat.succ f2 =>
      rw [rloopDrive_cons]
      simp only [sep_ite_pos]
      cases hctl : (iterateBody env f2 node.child
          ((if node.loopKey.length > 0 then ctx.set node.loopKey k else ctx).set node.loopVal v)).2.2 with
      | brk => simp [rloopBodies, hctl, joinLead]
      | nrm => simp [rloopBodies, hctl, ih f2 (c + 1), joinLead]
      | cnt => simp [rloopBodies, hctl, ih f2 (c + 1), joinLead]

/-- A `{% continue %}` node. -/
def contN : Node := Node.mk { typ := TypeContinue }

/-- A range loop with separator `", "` whose body writes `e` and is then
cut short by a continue before it could write `z`. -/
def rloopNodeC9 : Node := Node.mk {
  typ := TypeLoopRange
  loopVal := ("v").toList
  loopSrc := ("items").toList
  loopSep := (", ").toList
  child := [Node.mk { typ := TypeRaw, raw := ("e").toList }, contN,
            Node.mk { typ := TypeRaw, raw := ("z").toList }]
}

/-- `env0` with a three-element range source. -/
def envC9 : Env :=
  { env0 with rangeElems := fun _ _ =>
      [(Val.vNil, Val.vInt 1), (Val.vNil, Val.vInt 2), (Val.vNil, Val.vInt 3)] }

/-- C9: the output of a range loop is exactly its per-iteration bodies
joined by the separator — between consecutive iterations only, never
leading or trailing; `RangeLoop.Iterate` writes no separator at counter 0
and always writes it at a positive counter, so emission depends only on
the iteration count (the driver counts every iteration, including those
cut short by continue); concretely, a 3-element loop whose every body is
cut short by a continue still writes exactly two separators. -/
theorem rloop_separator_between_iterations :
    (∀ (env : Env) (f : Nat) (node : Node) (elems : List (Val × Val)) (ctx : Ctx),
       rloopDrive env f node elems 0 ctx =
         (sepJoin node.loopSep (rloopBodies env f node elems ctx).1,
          (rloopBodies env f node elems ctx).2)) ∧
    (∀ (env : Env) (f : Nat) (node : Node) (ctx : Ctx),
       iterateRL env f node 0 ctx = iterateBody env f node.child ctx) ∧
    (∀ (env : Env) (f : Nat) (node : Node) (cntr : Nat) (ctx : Ctx), 0 < cntr →
       iterateRL env f node cntr ctx =
         (node.loopSep ++ (iterateBody env f node.child ctx).1,
          (iterateBody env f node.child ctx).2)) ∧
    (renderNode envC9 9 rloopNodeC9 {}).1 = ("e, e, e").toList := by
  refine ⟨?_, ?_, ?_, by rfl⟩
  · intro env f node elems ctx
    cases elems with
    | nil =>
      rw [rloopDrive_nil]
      simp [rloopBodies, sepJoin]
    | cons e rest =>
      obtain ⟨k, v⟩ := e
      match f with
      | 0 =>
        rw [rloopDrive_zero]
        simp [rloopBodies, sepJoin]
      | Nat.succ f2 =>
        rw [rloopDrive_cons]
        simp only [gt_iff_lt, lt_self_iff_false, false_and, if_false, ite_false]
        cases hctl : (iterateBody env f2 node.child
            ((if node.loopKey.length > 0 then ctx.set node.loopKey k else ctx).set node.loopVal v)).2.2 with
        | brk => simp [rloopBodies, hctl, sepJoin]
        | nrm => simp [rloopBodies, hctl, rloopDrive_pos env node rest f2 0, sepJoin_cons]
        | cnt => simp [rloopBodies, hctl, rloopDrive_pos env node rest f2 0, sepJoin_cons]
  · intro env f node ctx
    simp [iterateRL]
  · intro env f node cntr ctx h
    match cntr, h with
    | Nat.succ c, _ =>
      simp only [iterateRL, sep_ite_pos]

/-- C9 witness: the positive-counter separator equation of the theorem at
counter 1. -/
theorem rloop_separator_between_iterations_witness :
    iterateRL env0 2 rloopNodeC9 1 {} =
      (rloopNodeC9.loopSep ++ (iterateBody env0 2 rloopNodeC9.child {}).1,
       (iterateBody env0 2 rloopNodeC9.child {}).2) :=
  rloop_separator_between_iterations.2.2.1 env0 2 rloopNodeC9 1 {} (by decide)

/-- `env0` with dynamic resolution yielding an empty byte slice. -/
def envC6 : Env := { env0 with getSsc := fun _ _ _ => (Val.vBytes [], none) }

/-- A dynamic print node with literal prefix and suffix. -/
def printDynNode : Node := Node.mk {
  typ := TypeTpl
  raw := ("val").toList
  pfx := ("<").toList
  sfx := (">").toList
}

/-- C6 counterexample: a print node whose final value is an *empty byte
sequence* does not fail — no empty-argument error is raised and the
prefix/suffix literals are written around the empty conversion,
contradicting the claim that an empty byte sequence is a failure (the
source's check `raw == nil || raw == ""` does not catch a boxed empty
byte slice). -/
theorem print_empty_byte_slice_no_error :
    renderNode envC6 3 printDynNode {} = (("<>").toList, {}, none) := by rfl

/-- C6 amended: for every print node, after the modifier chain runs, a
nil or empty-string final value is a failure — `renderNode` returns the
empty-argument error and writes nothing for that node; every other final
value, including an empty byte sequence, never produces that error
(provided conversion itself does not). -/
theorem print_empty_final_value (env : Env) (f : Nat) (node : Node) (ctx : Ctx)
    (rawv : Val) (ctx1 : Ctx) (v : Val) (ctx2 : Ctx)
    (hT : node.typ = TypeTpl)
    (hrp : (if node.rawStatic then (Val.vBytes node.raw, ctx)
            else getSscC env ctx node.raw node.rawSsc) = (rawv, ctx1))
    (h1 : ctx1.err = none)
    (hmp : runMods env node.mod rawv ctx1 = (v, ctx2))
    (h2 : ctx2.err = none) :
    ((v = Val.vNil ∨ v = Val.vStr []) →
       renderNode env (f + 1) node ctx = ([], ctx2, some Err.emptyArg)) ∧
    (v ≠ Val.vNil → v ≠ Val.vStr [] →
       (env.anyToBytes v).2 ≠ some Err.emptyArg →
       (renderNode env (f + 1) node ctx).2.2 ≠ some Err.emptyArg) := by
  have key : renderNode env (f + 1) node ctx =
      (if v = Val.vNil ∨ v = Val.vStr [] then ([], ctx2, some Err.emptyArg)
       else
         match (env.anyToBytes v).2 with
         | none => (node.pfx ++ (env.anyToBytes v).1 ++ node.sfx, ctx2, none)
         | some e => ([], ctx2, some e)) := by
    simp only [renderNode, hT, TypeTpl, TypeRaw]
    norm_num
    rw [hrp]
    simp only [h1]
    rw [hmp]
    simp only [h2]
  constructor
  · intro hv
    rw [key, if_pos hv]
  · intro hv1 hv2 hconv
    rw [key, if_neg (by simp [hv1, hv2])]
    cases hc : (env.anyToBytes v).2 with
    | none => simp [hc]
    | some e =>
      simp only [hc]
      intro hcontra
      apply hconv
      rw [hc]
      simpa using hcontra

/-- C6 witness: the amended theorem applied to the concrete empty-byte
print node. -/
theorem print_empty_final_value_witness :
    (renderNode envC6 3 printDynNode {}).2.2 ≠ some Err.emptyArg :=
  (print_empty_final_value envC6 2 printDynNode {} (Val.vBytes []) {} (Val.vBytes []) {}
    (by rfl) (by rfl) (by rfl) (by rfl) (by rfl)).2 (by decide) (by decide) (by decide)

/-- A found suffix index is an occurrence. -/
theorem indexSuffix_isPrefix (p : Bytes) : ∀ (l : Bytes) (j : Nat),
    indexSuffix p l = some j → p.isPrefixOf (l.drop j) := by
  intro l
  induction l with
  | nil =>
    intro j h
    simp only [indexSuffix] at h
    by_cases hp : p = []
    · subst hp
      simp at h
      subst h
      simp
    · simp [hp] at h
  | cons c rest ih =>
    intro j h
    simp only [indexSuffix] at h
    by_cases hp : p.isPrefixOf (c :: rest)
    · simp [hp] at h
      subst h
      simpa using hp
    · simp [hp] at h
      obtain ⟨j2, hj2, hj⟩ := h
      subst hj
      simpa using ih j2 hj2

/-- `indexAt` finds an occurrence at or after the start offset. -/
theorem indexAt_isPrefix (s p : Bytes) (k i : Nat) (h : indexAt s p k = some i) :
    p.isPrefixOf (s.drop i) ∧ k ≤ i := by
  simp only [indexAt, Option.map_eq_some'] at h
  obtain ⟨j, hj, hji⟩ := h
  subst hji
  have := indexSuffix_isPrefix p (s.drop k) j hj
  constructor
  · rwa [List.drop_drop, Nat.add_comm] at this
  · omega

/-- Searching from an occurrence finds it immediately. -/
theorem indexAt_self (s p : Bytes) (i : Nat) (h : p.isPrefixOf (s.drop i)) :
    indexAt s p i = some i := by
  simp only [indexAt]
  cases hd : s.drop i with
  | nil =>
    rw [hd] at h
    have hp : p = [] := by simpa using h
    simp [indexSuffix, hp]
  | cons c rest =>
    rw [hd] at h
    simp [indexSuffix, h]

/-- Unfold: one `parseTpl` step. -/
theorem parseTpl_succ (preg : List (Bytes × Bytes)) (tpl : Bytes) (f : Nat)
    (st : PState) (nodes : List Node) (o i : Nat) (inCtl : Bool) (tgt : Target) :
    parseTpl preg tpl (f + 1) st nodes o i inCtl tgt =
      (if Target.reached tgt st && !(Target.eqZero tgt) then
        { nodes := nodes, off := o, err := none, st := st }
      else
        match indexAt tpl ctlOpen i with
        | none =>
          if inCtl then { nodes := nodes, off := o, err := some Err.unexpectedEOF, st := st }
          else { nodes := addRaw nodes (tpl.drop o), off := tpl.length, err := none, st := st }
        | some i2 =>
          if inCtl then
            match indexAt tpl ctlClose i2 with
            | none => { nodes := nodes, off := o, err := some Err.unexpectedEOF, st := st }
            | some e0 =>
              let e := e0 + 2
              let q := processCtl preg tpl f st nodes ((tpl.drop o).take (e - o)) o
              match q.err with
              | some e2 => { nodes := q.nodes, off := o, err := some e2, st := q.st }
              | none =>
                if q.up then { nodes := q.nodes, off := q.off, err := none, st := q.st }
                else parseTpl preg tpl f q.st q.nodes q.off q.off false tgt
          else
            parseTpl preg tpl f st (addRaw nodes ((tpl.drop o).take (i2 - o))) i2 i2 true tgt) := rfl

/-- Unfold: one `processCtl` step. -/
theorem processCtl_succ (preg : List (Bytes × Bytes)) (tpl : Bytes) (f : Nat)
    (st : PState) (nodes : List Node) (ctl : Bytes) (pos : Nat) :
    processCtl preg tpl (f + 1) st nodes ctl pos =
    (let t := trim ctl ctlTrim
     match classifyCtl preg t with
     | CtlKind.printK nd =>
       { nodes := addNode nodes (Node.mk nd), off := pos + ctl.length,
         up := false, err := none, st := st }
     | CtlKind.ctxK nd =>
       { nodes := addNode nodes (Node.mk nd), off := pos + ctl.length,
         up := false, err := none, st := st }
     | CtlKind.counterK nd =>
       { nodes := addNode nodes (Node.mk nd), off := pos + ctl.length,
         up := false, err := none, st := st }
     | CtlKind.condHelperK nd =>
       let tgt2 := newTarget st
       let st2 := { st with cc := st.cc + 1 }
       let pr := parseTpl preg tpl f st2 [] (pos + ctl.length) (pos + ctl.length) false tgt2
       { nodes := addNode nodes (Node.mk { nd with child := buildCondChildren (splitNodes pr.nodes) }),
         off := pr.off, up := false, err := pr.err, st := pr.st }
     | CtlKind.condComplexK =>
       { nodes := nodes, off := pos, up := false, err := some Err.condComplex, st := st }
     | CtlKind.condK nd =>
       let tgt2 := newTarget st
       let st2 := { st with cc := st.cc + 1 }
       let pr := parseTpl preg tpl f st2 [] (pos + ctl.length) (pos + ctl.length) false tgt2
       { nodes := addNode nodes (Node.mk { nd with child := buildCondChildren (splitNodes pr.nodes) }),
         off := pr.off, up := false, err := pr.err, st := pr.st }
     | CtlKind.divK =>
       { nodes := addNode nodes (Node.mk { typ := TypeDiv }), off := pos + ctl.length,
         up := false, err := none, st := st }
     | CtlKind.endifK =>
       { nodes := nodes, off := pos + ctl.length, up := true, err := none,
         st := { st with cc := st.cc - 1 } }
     | CtlKind.loopRangeK nd =>
       let tgt2 := newTarget st
       let st2 := { st with cl := st.cl + 1 }
       let pr := parseTpl preg tpl f st2 [] (pos + ctl.length) (pos + ctl.length) false tgt2
       { nodes := addNode nodes (Node.mk { nd with child := pr.nodes }),
         off := pr.off, up := false, err := pr.err, st := pr.st }
     | CtlKind.loopCountK nd =>
       let tgt2 := newTarget st
       let st2 := { st with cl := st.cl + 1 }
       let pr := parseTpl preg tpl f st2 [] (pos + ctl.length) (pos + ctl.length) false tgt2
       { nodes := addNode nodes (Node.mk { nd with child := pr.nodes }),
         off := pr.off, up := false, err := pr.err, st := pr.st }
     | CtlKind.loopParseErrK =>
       { nodes := nodes, off := 0, up := false, err := some Err.loopParse, st := st }
     | CtlKind.endforK =>
       { nodes := nodes, off := pos + ctl.length, up := true, err := none,
         st := { st with cl := st.cl - 1 } }
     | CtlKind.breakK =>
       { nodes := addNode nodes (Node.mk { typ := TypeBreak }), off := pos + ctl.length,
         up := false, err := none, st := st }
     | CtlKind.continueK =>
       { nodes := addNode nodes (Node.mk { typ := TypeContinue }), off := pos + ctl.length,
         up := false, err := none, st := st }
     | CtlKind.switchK nd =>
       let tgt2 := newTarget st
       let st2 := { st with cs := st.cs + 1 }
       let pr := parseTpl preg tpl f st2 [] (pos + ctl.length) (pos + ctl.length) false tgt2
       { nodes := addNode nodes (Node.mk { nd with child := rollupSwitchNodes pr.nodes }),
         off := pr.off, up := false, err := pr.err, st := pr.st }
     | CtlKind.caseK nd =>
       { nodes := addNode nodes (Node.mk nd), off := pos + ctl.length,
         up := false, err := none, st := st }
     | CtlKind.defaultK =>
       { nodes := addNode nodes (Node.mk { typ := TypeDefault }), off := pos + ctl.length,
         up := false, err := none, st := st }
     | CtlKind.endswitchK =>
       { nodes := nodes, off := pos + ctl.length, up := true, err := none,
         st := { st with cs := st.cs - 1 } }
     | CtlKind.exitK =>
       { nodes := addNode nodes (Node.mk { typ := TypeExit }), off := pos + ctl.length,
         up := false, err := none, st := st }
     | CtlKind.badK =>
       { nodes := nodes, off := 0, up := false, err := some Err.unknownCtlParse, st := st }) := rfl

/-- Soundness of the unexpected-EOF error: whenever the parser walk
reports it, the walked source holds a `\x7b%` opener with no `%\x7d`
closer at or after it; every other stop returns a different error or
none.  The side hypothesis records the walk's invariant that in-control
mode starts exactly at an opener. -/
theorem parse_eof_sound (preg : List (Bytes × Bytes)) (tpl : Bytes) : ∀ fuel : Nat,
    (∀ (st : PState) (nodes : List Node) (o i : Nat) (inCtl : Bool) (tgt : Target),
       (inCtl = true → indexAt tpl ctlOpen i = some i) →
       (parseTpl preg tpl fuel st nodes o i inCtl tgt).err = some Err.unexpectedEOF →
       ∃ a b, indexAt tpl ctlOpen a = some b ∧ indexAt tpl ctlClose b = none) ∧
    (∀ (st : PState) (nodes : List Node) (ctl : Bytes) (pos : Nat),
       (processCtl preg tpl fuel st nodes ctl pos).err = some Err.unexpectedEOF →
       ∃ a b, indexAt tpl ctlOpen a = some b ∧ indexAt tpl ctlClose b = none) := by
  intro fuel
  induction fuel with
  | zero =>
    constructor
    · intro st nodes o i inCtl tgt hin h
      exact absurd (Option.some.inj h) (by decide)
    · intro st nodes ctl pos h
      exact absurd (Option.some.inj h) (by decide)
  | succ f ih =>
    obtain ⟨ihP, ihC⟩ := ih
    constructor
    · intro st nodes o i inCtl tgt hin h
      rw [parseTpl_succ] at h
      by_cases htgt : (Target.reached tgt st && !(Target.eqZero tgt)) = true
      · rw [if_pos htgt] at h
        exact Option.noConfusion h
      · rw [if_neg htgt] at h
        cases hio : indexAt tpl ctlOpen i with
        | none =>
          simp only [hio] at h
          cases hc : inCtl with
          | false =>
            simp only [hc] at h
            exact Option.noConfusion h
          | true =>
            have hx := hin hc
            rw [hio] at hx
            exact Option.noConfusion hx
        | some i2 =>
          simp only [hio] at h
          cases hc : inCtl with
          | false =>
            simp only [hc] at h
            have hpf : ctlOpen.isPrefixOf (tpl.drop i2) := (indexAt_isPrefix _ _ _ _ hio).1
            have hself := indexAt_self tpl ctlOpen i2 hpf
            exact ihP st _ i2 i2 true tgt (fun _ => hself) h
          | true =>
            simp only [hc] at h
            cases hicl : indexAt tpl ctlClose i2 with
            | none => exact ⟨i, i2, hio, hicl⟩
            | some e0 =>
              simp only [hicl] at h
              rcases hq : processCtl preg tpl f st nodes ((tpl.drop o).take (e0 + 2 - o)) o
                with ⟨qn, qo, qup, qe, qst⟩
              simp only [hq] at h
              cases qe with
              | some e2 =>
                have he2 : e2 = Err.unexpectedEOF := Option.some.inj h
                subst he2
                have hqe : (processCtl preg tpl f st nodes ((tpl.drop o).take (e0 + 2 - o)) o).err =
                    some Err.unexpectedEOF := by rw [hq]
                exact ihC st nodes _ o hqe
              | none =>
                cases hup : qup with
                | true =>
                  simp only [hup] at h
                  exact Option.noConfusion h
                | false =>
                  simp only [hup] at h
                  exact ihP qst qn qo qo false tgt (fun h' => Bool.noConfusion h') h
    · intro st nodes ctl pos h
      rw [processCtl_succ] at h
      cases hk : classifyCtl preg (trim ctl ctlTrim) with
      | printK nd => simp only [hk] at h; exact absurd h (by decide)
      | ctxK nd => simp only [hk] at h; exact absurd h (by decide)
      | counterK nd => simp only [hk] at h; exact absurd h (by decide)
      | condHelperK nd =>
        simp only [hk] at h
        exact ihP _ [] (pos + ctl.length) (pos + ctl.length) false _
          (fun h' => Bool.noConfusion h') h
      | condComplexK => simp only [hk] at h; exact absurd h (by decide)
      | condK nd =>
        simp only [hk] at h
        exact ihP _ [] (pos + ctl.length) (pos + ctl.length) false _
          (fun h' => Bool.noConfusion h') h
      | divK => simp only [hk] at h; exact absurd h (by decide)
      | endifK => simp only [hk] at h; exact absurd h (by decide)
      | loopRangeK nd =>
        simp only [hk] at h
        exact ihP _ [] (pos + ctl.length) (pos + ctl.length) false _
          (fun h' => Bool.noConfusion h') h
      | loopCountK nd =>
        simp only [hk] at h
        exact ihP _ [] (pos + ctl.length) (pos + ctl.length) false _
          (fun h' => Bool.noConfusion h') h
      | loopParseErrK => simp only [hk] at h; exact absurd h (by decide)
      | endforK => simp only [hk] at h; exact absurd h (by decide)
      | breakK => simp only [hk] at h; exact absurd h (by decide)
      | continueK => simp only [hk] at h; exact absurd h (by decide)
      | switchK nd =>
        simp only [hk] at h
        exact ihP _ [] (pos + ctl.length) (pos + ctl.length) false _
          (fun h' => Bool.noConfusion h') h
      | caseK nd => simp only [hk] at h; exact absurd h (by decide)
      | defaultK => simp only [hk] at h; exact absurd h (by decide)
      | endswitchK => simp only [hk] at h; exact absurd h (by decide)
      | exitK => simp only [hk] at h; exact absurd h (by decide)
      | badK => simp only [hk] at h; exact absurd h (by decide)

/-- C2 amended: `Parse` reports the unterminated-control-structure error
(`ErrUnexpectedEOF`) only for genuinely unclosed *regions*: whenever it
returns that error, the preprocessed source holds a `\x7b%` opener with
no `%\x7d` closer at or after it.  The error is guaranteed whenever the
source's first opener has no closer after it; in the concrete two-region
source `a\x7b% break %\x7db\x7b% if a` the unclosed second region
likewise yields it, while `\x7b% qq %\x7d\x7b% if` fails with the
unknown-control-structure error instead — the ill-formed first region's
own error takes precedence over the unclosed one behind it.  A control
*structure* that is opened but never terminated (`\x7b% if a %\x7d`
with no endif) is not detected: Parse returns a valid tree and nil
error. -/
theorem parse_fails_only_for_unclosed_regions :
    (∀ (preg : List (Bytes × Bytes)) (tpl : Bytes) (keepFmt : Bool),
       (Parse preg tpl keepFmt).2 = some Err.unexpectedEOF →
       ∃ a b, indexAt (if keepFmt then cutComments tpl else cutFmt (cutComments tpl)) ctlOpen a = some b ∧
         indexAt (if keepFmt then cutComments tpl else cutFmt (cutComments tpl)) ctlClose b = none) ∧
    (∀ (preg : List (Bytes × Bytes)) (tpl : Bytes) (i : Nat),
       indexAt (cutFmt (cutComments tpl)) ctlOpen 0 = some i →
       indexAt (cutFmt (cutComments tpl)) ctlClose i = none →
       (Parse preg tpl false).2 = some Err.unexpectedEOF) ∧
    (Parse [] (("a\x7b% break %\x7db\x7b% if a").toList) false).2 = some Err.unexpectedEOF ∧
    (Parse [] (("\x7b% qq %\x7d\x7b% if").toList) false).2 = some Err.unknownCtlParse ∧
    (Parse [] (("\x7b% if a %\x7dtext").toList) false).2 = none := by
  refine ⟨?_, ?_, by rfl, by rfl, by rfl⟩
  · intro preg tpl keepFmt h
    simp only [Parse] at h
    exact (parse_eof_sound preg _ _).1 {} [] 0 0 false _ (fun h' => Bool.noConfusion h') h
  · intro preg tpl i h1 h2
    have hopen : ctlOpen.isPrefixOf ((cutFmt (cutComments tpl)).drop i) :=
      (indexAt_isPrefix _ _ _ _ h1).1
    have h1b : indexAt (cutFmt (cutComments tpl)) ctlOpen i = some i :=
      indexAt_self _ _ _ hopen
    simp only [Parse, Bool.false_eq_true, if_false, ite_false]
    obtain ⟨m, hm⟩ : ∃ m, 4 * (cutFmt (cutComments tpl)).length + 16 = (m + 1) + 1 :=
      ⟨4 * (cutFmt (cutComments tpl)).length + 14, by omega⟩
    rw [hm, parseTpl_succ]
    have htgt : Target.eqZero (newTarget {}) = true := by decide
    rw [htgt]
    simp only [Bool.not_true, Bool.and_false, if_false, ite_false]
    rw [h1]
    simp only [Bool.false_eq_true, if_false, ite_false]
    rw [parseTpl_succ, htgt]
    simp only [Bool.not_true, Bool.and_false, if_false, ite_false]
    rw [h1b]
    simp only [if_true, ite_true]
    rw [h2]
    simp

/-- C2 counterexample: `{% if a %}` followed by text and no `{% endif %}`
parses successfully — no unterminated-control-structure condition — and
the resulting tree is returned as valid, holding the conditional with the
trailing text as its body. -/
theorem parse_unterminated_if_succeeds :
    (Parse [] (("{% if a %}text").toList) false).2 = none ∧
    ((Parse [] (("{% if a %}text").toList) false).1.nodes.map Node.typ) = [TypeCond] :=
  ⟨by rfl, by rfl⟩

/-- Witness: the amended theorem's two quantified conjuncts at the
concrete unclosed region `\x7b% if a`. -/
theorem parse_fails_only_for_unclosed_regions_witness :
    (∃ a b, indexAt (cutFmt (cutComments (("\x7b% if a").toList))) ctlOpen a = some b ∧
       indexAt (cutFmt (cutComments (("\x7b% if a").toList))) ctlClose b = none) ∧
    (Parse [] (("\x7b% if a").toList) false).2 = some Err.unexpectedEOF :=
  ⟨parse_fails_only_for_unclosed_regions.1 [] (("\x7b% if a").toList) false (by rfl),
   parse_fails_only_for_unclosed_regions.2.1 [] (("\x7b% if a").toList) 0 (by rfl) (by rfl)⟩

/-- The comparison oracle never reports an error. -/
def CleanCmp (env : Env) : Prop :=
  ∀ (vars : List (Bytes × Val)) (l : Bytes) (op : Op) (r : Bytes),
    (env.cmp vars l op r).2 = none

/-- The resolution oracle never reports an error. -/
def CleanGet (env : Env) : Prop :=
  ∀ (vars : List (Bytes × Val)) (p : Bytes) (ssc : Nat),
    (env.getSsc vars p ssc).2 = none

/-- The conversion oracle never reports an error. -/
def CleanConv (env : Env) : Prop :=
  ∀ v : Val, (env.anyToBytes v).2 = none

/-- Under a clean comparator, `Ctx.cmp` returns the boolean and leaves
the context unchanged. -/
theorem cmpC_clean {env : Env} (h : CleanCmp env) (ctx : Ctx) (l : Bytes)
    (op : Op) (r : Bytes) :
    cmpC env ctx l op r = ((env.cmp ctx.vars l op r).1, ctx) := by
  simp only [cmpC, h ctx.vars l op r]

/-- Under clean resolution, `Ctx.getSsc` returns the value and leaves the
context unchanged. -/
theorem getSscC_clean {env : Env} (h : CleanGet env) (ctx : Ctx) (p : Bytes)
    (ssc : Nat) :
    getSscC env ctx p ssc = ((env.getSsc ctx.vars p ssc).1, ctx) := by
  simp only [getSscC, h ctx.vars p ssc]

/-- The claim-side match of a Case against a discriminant: equality only,
the case's own operator ignored; a dynamic left operand is resolved and
converted first. -/
def caseMatchArg (env : Env) (vars : List (Bytes × Val)) (arg : Bytes) (ch : Node) : Bool :=
  if ch.caseLStatic then (env.cmp vars arg OpEq ch.caseL).1
  else (env.cmp vars arg OpEq (env.anyToBytes (env.getSsc vars ch.caseL ch.caseLSsc).1).1).1

/-- The claim-side free-standing evaluation of a Case, exactly like a
Cond node: operator as declared, swapped when only the left operand is
static. -/
def caseMatchCond (env : Env) (vars : List (Bytes × Val)) (ch : Node) : Bool :=
  if ch.caseRStatic then (env.cmp vars ch.caseL ch.caseOp ch.caseR).1
  else if ch.caseLStatic then (env.cmp vars ch.caseR (Op.Swap ch.caseOp) ch.caseL).1
  else (env.cmp vars ch.caseL ch.caseOp (env.anyToBytes (env.getSsc vars ch.caseR ch.caseRSsc).1).1).1

/-- Claim-side scan outcome for a discriminant-free switch. -/
inductive SwScan where
  | senseless : SwScan
  | matchCase : Node → SwScan
  | fallthrough : SwScan

/-- The claim-side scan of a discriminant-free switch body: the first
Case with two static operands (before any match) is senseless, otherwise
the first matching Case wins. -/
def noArgScanSpec (env : Env) (vars : List (Bytes × Val)) : List Node → SwScan
  | [] => SwScan.fallthrough
  | ch :: rest =>
    if ch.typ = TypeCase then
      if ch.caseLStatic ∧ ch.caseRStatic then SwScan.senseless
      else if caseMatchCond env vars ch then SwScan.matchCase ch
      else noArgScanSpec env vars rest
    else noArgScanSpec env vars rest

/-- With clean oracles the discriminant scan selects exactly the first
Case whose left operand equals the discriminant. -/
theorem switchScanArgD_clean {env : Env} (hcmp : CleanCmp env) (hget : CleanGet env)
    (hconv : CleanConv env) (arg : Bytes) :
    ∀ (children : List Node) (ctx : Ctx), ctx.err = none →
    switchScanArgD env arg children ctx =
      (match children.find? (fun ch => ch.typ == TypeCase && caseMatchArg env ctx.vars arg ch) with
       | some ch => SwDecision.matched ch ctx
       | none => SwDecision.nomatch ctx) := by
  intro children
  induction children with
  | nil => intro ctx _; rfl
  | cons ch rest ih =>
    intro ctx hctx
    by_cases hc : ch.typ = TypeCase
    · by_cases hs : ch.caseLStatic = true
      · rw [switchScanArgD]
        rw [if_pos hc, if_pos hs, cmpC_clean hcmp ctx arg OpEq ch.caseL]
        by_cases hr : (env.cmp ctx.vars arg OpEq ch.caseL).1 = true
        · simp only [hr, if_true, ite_true]
          rw [List.find?]
          have : (ch.typ == TypeCase && caseMatchArg env ctx.vars arg ch) = true := by
            simp [hc, caseMatchArg, hs, hr]
          rw [this]
          try simp
        · simp only [hr]
          simp only [Bool.false_eq_true, if_false, ite_false]
          rw [ih ctx hctx]
          rw [List.find?]
          have : (ch.typ == TypeCase && caseMatchArg env ctx.vars arg ch) = false := by
            simp [hc, caseMatchArg, hs]
            simpa using hr
          rw [this]
          try simp
      · rw [switchScanArgD]
        rw [if_pos hc, if_neg (by simpa using hs),
            getSscC_clean hget ctx ch.caseL ch.caseLSsc]
        simp only [hctx, if_pos rfl, hconv (env.getSsc ctx.vars ch.caseL ch.caseLSsc).1]
        rw [cmpC_clean hcmp ctx arg OpEq _]
        by_cases hr : (env.cmp ctx.vars arg OpEq (env.anyToBytes (env.getSsc ctx.vars ch.caseL ch.caseLSsc).1).1).1 = true
        · simp only [hr, if_true, ite_true]
          rw [List.find?]
          have : (ch.typ == TypeCase && caseMatchArg env ctx.vars arg ch) = true := by
            simp [hc, caseMatchArg, hs, hr]
          rw [this]
          try simp
        · simp only [hr, Bool.false_eq_true, if_false, ite_false]
          rw [ih ctx hctx]
          rw [List.find?]
          have : (ch.typ == TypeCase && caseMatchArg env ctx.vars arg ch) = false := by
            simp [hc, caseMatchArg, hs]
            simpa using hr
          rw [this]
          try simp
    · rw [switchScanArgD]
      rw [if_neg hc, ih ctx hctx]
      rw [List.find?]
      have : (ch.typ == TypeCase && caseMatchArg env ctx.vars arg ch) = false := by
        simp [hc]
      rw [this]
      try simp

/-- With clean oracles the discriminant-free scan realizes the claim-side
scan. -/
theorem switchScanNoArgD_clean {env : Env} (hcmp : CleanCmp env) (hget : CleanGet env)
    (hconv : CleanConv env) :
    ∀ (children : List Node) (ctx : Ctx), ctx.err = none →
    switchScanNoArgD env children ctx =
      (match noArgScanSpec env ctx.vars children with
       | SwScan.senseless => SwDecision.abort ctx Err.senselessCond
       | SwScan.matchCase ch => SwDecision.matched ch ctx
       | SwScan.fallthrough => SwDecision.nomatch ctx) := by
  intro children
  induction children with
  | nil => intro ctx _; rfl
  | cons ch rest ih =>
    intro ctx hctx
    by_cases hc : ch.typ = TypeCase
    · by_cases hss : ch.caseLStatic ∧ ch.caseRStatic
      · rw [switchScanNoArgD, if_pos hc, if_pos hss]
        simp [noArgScanSpec, hc, hss]
      · rw [switchScanNoArgD, if_pos hc, if_neg hss]
        by_cases hsr : ch.caseRStatic = true
        · have hslf : ¬ ch.caseLStatic = true := fun ha => hss ⟨ha, hsr⟩
          rw [if_pos hsr, cmpC_clean hcmp ctx ch.caseL ch.caseOp ch.caseR]
          simp only [hctx]
          by_cases hr : (env.cmp ctx.vars ch.caseL ch.caseOp ch.caseR).1 = true
          · simp only [hr, if_true, ite_true]
            simp [noArgScanSpec, hc, hslf, caseMatchCond, hsr, hr]
          · simp only [hr, Bool.false_eq_true, if_false, ite_false]
            rw [ih ctx hctx]
            have : caseMatchCond env ctx.vars ch = false := by
              simp [caseMatchCond, hsr]
              simpa using hr
            simp [noArgScanSpec, hc, hslf, this]
        · by_cases hsl : ch.caseLStatic = true
          · rw [if_neg (by simpa using hsr), if_pos hsl,
                cmpC_clean hcmp ctx ch.caseR (Op.Swap ch.caseOp) ch.caseL]
            simp only [hctx]
            by_cases hr : (env.cmp ctx.vars ch.caseR (Op.Swap ch.caseOp) ch.caseL).1 = true
            · simp only [hr, if_true, ite_true]
              simp [noArgScanSpec, hc, hsr, caseMatchCond, hsl, hr]
            · simp only [hr, Bool.false_eq_true, if_false, ite_false]
              rw [ih ctx hctx]
              have : caseMatchCond env ctx.vars ch = false := by
                simp [caseMatchCond, hsr, hsl]
                simpa using hr
              simp [noArgScanSpec, hc, hsr, this]
          · rw [if_neg (by simpa using hsr), if_neg (by simpa using hsl),
                getSscC_clean hget ctx ch.caseR ch.caseRSsc]
            simp only [hctx, if_pos rfl, hconv (env.getSsc ctx.vars ch.caseR ch.caseRSsc).1]
            rw [cmpC_clean hcmp ctx ch.caseL ch.caseOp _]
            simp only [hctx]
            by_cases hr : (env.cmp ctx.vars ch.caseL ch.caseOp
                (env.anyToBytes (env.getSsc ctx.vars ch.caseR ch.caseRSsc).1).1).1 = true
            · simp only [hr, if_true, ite_true]
              simp [noArgScanSpec, hc, hsr, caseMatchCond, hsl, hr]
            · simp only [hr, Bool.false_eq_true, if_false, ite_false]
              rw [ih ctx hctx]
              have : caseMatchCond env ctx.vars ch = false := by
                simp [caseMatchCond, hsr, hsl]
                simpa using hr
              simp [noArgScanSpec, hc, hsr, this]
    · rw [switchScanNoArgD, if_neg hc, ih ctx hctx]
      simp [noArgScanSpec, hc]

/-- C7: with a discriminant, the switch renders exactly the first Case
whose left operand compares equal to the discriminant (the Case's own
operator is ignored), and stops; without a discriminant each Case is
evaluated as a free-standing comparison exactly like a Cond node, a Case
with two static operands aborting as a senseless condition; when no Case
matches, the first Default is rendered if present, otherwise nothing is
rendered for the switch. -/
theorem switch_renders_first_match_or_default (env : Env) (f : Nat) (node : Node)
    (ctx : Ctx) (hcmp : CleanCmp env) (hget : CleanGet env) (hconv : CleanConv env)
    (hctx : ctx.err = none) (hT : node.typ = TypeSwitch) :
    renderNode env (f + 1) node ctx =
      (if node.switchArg.length > 0 then
        match node.child.find? (fun ch => ch.typ == TypeCase && caseMatchArg env ctx.vars node.switchArg ch) with
        | some ch => renderNode env f ch ctx
        | none =>
          match node.child.find? (fun ch => ch.typ == TypeDefault) with
          | some d => renderNode env f d ctx
          | none => ([], ctx, none)
      else
        match noArgScanSpec env ctx.vars node.child with
        | SwScan.senseless => ([], ctx, some Err.senselessCond)
        | SwScan.matchCase ch => renderNode env f ch ctx
        | SwScan.fallthrough =>
          match node.child.find? (fun ch => ch.typ == TypeDefault) with
          | some d => renderNode env f d ctx
          | none => ([], ctx, none)) := by
  have key : renderNode env (f + 1) node ctx =
      (let d := if node.switchArg.length > 0
                then switchScanArgD env node.switchArg node.child ctx
                else switchScanNoArgD env node.child ctx
       match d with
       | SwDecision.abort ctx1 e => ([], ctx1, some e)
       | SwDecision.matched ch ctx1 => renderNode env f ch ctx1
       | SwDecision.nomatch ctx1 =>
         match node.child.find? (fun ch => ch.typ == TypeDefault) with
         | some dn => renderNode env f dn ctx1
         | none => ([], ctx1, none)) := by
    simp only [renderNode, hT, TypeSwitch, TypeRaw, TypeTpl, TypeCtx, TypeCond,
      TypeCondTrue, TypeCondFalse, TypeCase, TypeDefault, TypeLoopCount,
      TypeLoopRange, TypeBreak, TypeContinue]
    norm_num
  rw [key]
  by_cases ha : node.switchArg.length > 0
  · simp only [ha, if_true, ite_true]
    rw [switchScanArgD_clean hcmp hget hconv node.switchArg node.child ctx hctx]
    cases hfind : node.child.find? (fun ch => ch.typ == TypeCase && caseMatchArg env ctx.vars node.switchArg ch) with
    | none => simp
    | some ch => simp
  · simp only [ha, Bool.false_eq_true, if_false, ite_false]
    rw [switchScanNoArgD_clean hcmp hget hconv node.child ctx hctx]
    cases hscan : noArgScanSpec env ctx.vars node.child with
    | senseless => simp
    | matchCase ch => simp
    | fallthrough => simp

/-- A static case `1`. -/
def swCaseN : Node := Node.mk { typ := TypeCase, caseL := ("1").toList, caseLStatic := true, caseOp := OpEq }

/-- A default group printing `D`. -/
def swDefN : Node := Node.mk { typ := TypeDefault, child := [Node.mk { typ := TypeRaw, raw := ("D").toList }] }

/-- A switch with discriminant `x`, one case and a default. -/
def swC7 : Node := Node.mk { typ := TypeSwitch, switchArg := ("x").toList, child := [swCaseN, swDefN] }

/-- C7 witness: under `env0` (everything compares false) the concrete
switch renders its default group. -/
theorem switch_renders_first_match_or_default_witness : renderNode env0 4 swC7 {} = (("D").toList, {}, none) := by
  rw [switch_renders_first_match_or_default env0 3 swC7 {} (fun _ _ _ _ => rfl)
    (fun _ _ _ => rfl) (fun v => by cases v <;> rfl) rfl rfl]
  rfl

/-- An error slot that carries neither of the loop-control sentinels
(`ErrBreakLoop`/`ErrLoopContinue` in the source). -/
def ErrOkOpt (e : Option Err) : Prop :=
  e ≠ some Err.breakLoop ∧ e ≠ some Err.contLoop

/-- The oracle produces no loop-control sentinel on any of its error
outputs: inspector getters, comparators, converters and modifier bodies
return ordinary errors only, as every implementation shipped with the
package does — the sentinels are reserved for Break/Continue nodes. -/
def EnvSignalFree (env : Env) : Prop :=
  (∀ (vars : List (Bytes × Val)) (p : Bytes) (ssc : Nat), ErrOkOpt (env.getSsc vars p ssc).2) ∧
  (∀ (vars : List (Bytes × Val)) (l : Bytes) (op : Op) (r : Bytes), ErrOkOpt (env.cmp vars l op r).2) ∧
  (∀ v : Val, ErrOkOpt (env.anyToBytes v).2) ∧
  (∀ (fnid : Bytes) (vars : List (Bytes × Val)) (v : Val) (args : List Val),
     ErrOkOpt (env.callMod fnid vars v args).2) ∧
  (∀ ins : Bytes, ErrOkOpt (env.getInspector ins))

/-- `Ctx.Set` does not touch the context's error slot. -/
theorem set_err (ctx : Ctx) (name : Bytes) (v : Val) :
    (ctx.set name v).err = ctx.err := rfl

/-- `Ctx.SetBytes` does not touch the context's error slot. -/
theorem setBytes_err (ctx : Ctx) (name b : Bytes) :
    (ctx.setBytes name b).err = ctx.err := rfl

/-- Resolving a variable through a signal-free oracle keeps the context's
error slot free of loop-control sentinels. -/
theorem getSscC_err_ok {env : Env} (hE : EnvSignalFree env) (ctx : Ctx)
    (p : Bytes) (ssc : Nat) (h : ErrOkOpt ctx.err) :
    ErrOkOpt (getSscC env ctx p ssc).2.err := by
  simp only [getSscC]
  cases hx : (env.getSsc ctx.vars p ssc).2 with
  | none => exact h
  | some e =>
    have := hE.1 ctx.vars p ssc
    rw [hx] at this
    exact this

/-- A comparison through a signal-free oracle keeps the context's error
slot free of loop-control sentinels. -/
theorem cmpC_err_ok {env : Env} (hE : EnvSignalFree env) (ctx : Ctx)
    (l : Bytes) (op : Op) (r : Bytes) (h : ErrOkOpt ctx.err) :
    ErrOkOpt (cmpC env ctx l op r).2.err := by
  simp only [cmpC]
  cases hx : (env.cmp ctx.vars l op r).2 with
  | none => exact h
  | some e =>
    have := hE.2.1 ctx.vars l op r
    rw [hx] at this
    exact this

/-- Resolving modifier arguments through a signal-free oracle keeps the
context's error slot free of loop-control sentinels. -/
theorem resolveModArgs_err_ok {env : Env} (hE : EnvSignalFree env) :
    ∀ (args : List ModArg) (ctx : Ctx), ErrOkOpt ctx.err →
    ErrOkOpt (resolveModArgs env args ctx).2.err := by
  intro args
  induction args with
  | nil => intro ctx h; exact h
  | cons a rest ih =>
    intro ctx h
    by_cases hs : a.static = true
    · simp only [resolveModArgs, hs, if_true, ite_true]
      exact ih ctx h
    · simp only [resolveModArgs, hs, Bool.false_eq_true, if_false, ite_false]
      exact ih _ (getSscC_err_ok hE ctx a.val a.ssc h)

/-- Running a modifier chain through a signal-free oracle keeps the
context's error slot free of loop-control sentinels. -/
theorem runMods_err_ok {env : Env} (hE : EnvSignalFree env) :
    ∀ (mods : List ModNode) (v : Val) (ctx : Ctx), ErrOkOpt ctx.err →
    ErrOkOpt (runMods env mods v ctx).2.err := by
  intro mods
  induction mods with
  | nil => intro v ctx h; exact h
  | cons m rest ih =>
    intro v ctx h
    simp only [runMods]
    have hargs := resolveModArgs_err_ok hE m.arg ctx h
    cases hx : (env.callMod (m.fn.getD []) (resolveModArgs env m.arg ctx).2.vars v
        (resolveModArgs env m.arg ctx).1).2 with
    | some e =>
      simp only []
      have := hE.2.2.2.1 (m.fn.getD []) (resolveModArgs env m.arg ctx).2.vars v
        (resolveModArgs env m.arg ctx).1
      rw [hx] at this
      exact this
    | none =>
      simp only []
      apply ih
      have := hE.2.2.2.1 (m.fn.getD []) (resolveModArgs env m.arg ctx).2.vars v
        (resolveModArgs env m.arg ctx).1
      rw [hx] at this
      exact this

/-- The context carried by a switch-scan decision has a sentinel-free
error slot. -/
def decErrOk : SwDecision → Prop
  | SwDecision.abort ctx _ => ErrOkOpt ctx.err
  | SwDecision.matched _ ctx => ErrOkOpt ctx.err
  | SwDecision.nomatch ctx => ErrOkOpt ctx.err

/-- The discriminant-switch scan preserves a sentinel-free error slot
under a signal-free oracle. -/
theorem switchScanArgD_err_ok {env : Env} (hE : EnvSignalFree env) (arg : Bytes) :
    ∀ (children : List Node) (ctx : Ctx), ErrOkOpt ctx.err →
    decErrOk (switchScanArgD env arg children ctx) := by
  intro children
  induction children with
  | nil => intro ctx h; exact h
  | cons ch rest ih =>
    intro ctx h
    simp only [switchScanArgD]
    split
    · split
      · rcases hcmp : cmpC env ctx arg OpEq ch.caseL with ⟨r, ctx1⟩
        have h1 := cmpC_err_ok hE ctx arg OpEq ch.caseL h
        rw [hcmp] at h1
        simp only [hcmp]
        split
        · exact h1
        · exact ih ctx1 h1
      · rcases hg : getSscC env ctx ch.caseL ch.caseLSsc with ⟨v, ctx1⟩
        have h1 := getSscC_err_ok hE ctx ch.caseL ch.caseLSsc h
        rw [hg] at h1
        simp only [hg]
        split
        · split
          · exact h1
          · rcases hcmp : cmpC env ctx1 arg OpEq (env.anyToBytes v).1 with ⟨r, ctx2⟩
            have h2 := cmpC_err_ok hE ctx1 arg OpEq (env.anyToBytes v).1 h1
            rw [hcmp] at h2
            simp only [hcmp]
            split
            · exact h2
            · exact ih ctx2 h2
        · exact ih ctx1 h1
    · exact ih ctx h

/-- The no-discriminant switch scan preserves a sentinel-free error slot
under a signal-free oracle. -/
theorem switchScanNoArgD_err_ok {env : Env} (hE : EnvSignalFree env) :
    ∀ (children : List Node) (ctx : Ctx), ErrOkOpt ctx.err →
    decErrOk (switchScanNoArgD env children ctx) := by
  intro children
  induction children with
  | nil => intro ctx h; exact h
  | cons ch rest ih =>
    intro ctx h
    simp only [switchScanNoArgD]
    split
    · split
      · exact h
      · split
        · rcases hcmp : cmpC env ctx ch.caseL ch.caseOp ch.caseR with ⟨r, ctx1⟩
          have h1 := cmpC_err_ok hE ctx ch.caseL ch.caseOp ch.caseR h
          rw [hcmp] at h1
          simp only [hcmp]
          split
          · exact h1
          · split
            · exact h1
            · exact ih ctx1 h1
        · split
          · rcases hcmp : cmpC env ctx ch.caseR (Op.Swap ch.caseOp) ch.caseL with ⟨r, ctx1⟩
            have h1 := cmpC_err_ok hE ctx ch.caseR (Op.Swap ch.caseOp) ch.caseL h
            rw [hcmp] at h1
            simp only [hcmp]
            split
            · exact h1
            · split
              · exact h1
              · exact ih ctx1 h1
          · rcases hg : getSscC env ctx ch.caseR ch.caseRSsc with ⟨v, ctx1⟩
            have h1 := getSscC_err_ok hE ctx ch.caseR ch.caseRSsc h
            rw [hg] at h1
            simp only [hg]
            split
            · split
              · exact h1
              · rcases hcmp : cmpC env ctx1 ch.caseL ch.caseOp (env.anyToBytes v).1 with ⟨r, ctx2⟩
                have h2 := cmpC_err_ok hE ctx1 ch.caseL ch.caseOp (env.anyToBytes v).1 h1
                rw [hcmp] at h2
                simp only [hcmp]
                split
                · exact h2
                · split
                  · exact h2
                  · exact ih ctx2 h2
            · split
              · exact h1
              · exact ih ctx1 h1
    · exact ih ctx h

/-- A conditional `Ctx.Set` does not touch the context's error slot. -/
theorem ite_set_err (c : Prop) [Decidable c] (ctx : Ctx) (n : Bytes) (k : Val) :
    (if c then ctx.set n k else ctx).err = ctx.err := by
  split <;> rfl

/-- Unfold: one step of `renderNode` with fuel left. -/
theorem renderNode_succ (env : Env) (f : Nat) (node : Node) (ctx : Ctx) :
    renderNode env (f + 1) node ctx =
    (if node.typ = TypeRaw then
      (node.raw, ctx, none)
    else if node.typ = TypeTpl then
      let rp : Val × Ctx :=
        if node.rawStatic then (Val.vBytes node.raw, ctx)
        else getSscC env ctx node.raw node.rawSsc
      match rp.2.err with
      | some e => ([], rp.2, some e)
      | none =>
        let mp := runMods env node.mod rp.1 rp.2
        match mp.2.err with
        | some _ => ([], mp.2, none)
        | none =>
          if mp.1 = Val.vNil ∨ mp.1 = Val.vStr [] then ([], mp.2, some Err.emptyArg)
          else
            let cp := env.anyToBytes mp.1
            match cp.2 with
            | none => (node.pfx ++ cp.1 ++ node.sfx, mp.2, none)
            | some e => ([], mp.2, some e)
    else if node.typ = TypeCtx then
      if node.ctxSrcStatic then ([], ctx.setBytes node.ctxVar node.ctxSrc, none)
      else
        match env.getInspector node.ctxIns with
        | some e => ([], ctx, some e)
        | none =>
          let (v, ctx1) := getSscC env ctx node.ctxSrc node.ctxSrcSsc
          ([], ctx1.set node.ctxVar v, none)
    else if node.typ = TypeCond then
      if node.condLStatic ∧ node.condRStatic then ([], ctx, some Err.senselessCond)
      else if node.condRStatic then
        let (r, ctx1) := cmpC env ctx node.condL node.condOp node.condR
        condTail env f node.child r ctx1
      else if node.condLStatic then
        let (r, ctx1) := cmpC env ctx node.condR (Op.Swap node.condOp) node.condL
        condTail env f node.child r ctx1
      else
        let (v, ctx1) := getSscC env ctx node.condR node.condRSsc
        if ctx1.err = none then
          let cp := env.anyToBytes v
          match cp.2 with
          | some e => ([], ctx1, some e)
          | none =>
            let (r, ctx2) := cmpC env ctx1 node.condL node.condOp cp.1
            condTail env f node.child r ctx2
        else condTail env f node.child false ctx1
    else if node.typ = TypeCondTrue ∨ node.typ = TypeCondFalse ∨
            node.typ = TypeCase ∨ node.typ = TypeDefault then
      renderNodesSeq env f node.child ctx
    else if node.typ = TypeLoopCount then
      let i0 := env.cloopInit ctx.vars node.loopCntInit node.loopCntStatic
      let lim := env.cloopLim ctx.vars node.loopLim node.loopLimStatic
      let p := cloopRun env f node i0 lim 0 ctx
      match p.2.err with
      | some e => (p.1, p.2, some e)
      | none => (p.1, p.2, none)
    else if node.typ = TypeLoopRange then
      let elems := env.rangeElems ctx.vars node.loopSrc
      let p := rloopDrive env f node elems 0 ctx
      match p.2.err with
      | some e => (p.1, p.2, some e)
      | none => (p.1, p.2, none)
    else if node.typ = TypeBreak then ([], ctx, some Err.breakLoop)
    else if node.typ = TypeContinue then ([], ctx, some Err.contLoop)
    else if node.typ = TypeSwitch then
      let d := if node.switchArg.length > 0
               then switchScanArgD env node.switchArg node.child ctx
               else switchScanNoArgD env node.child ctx
      match d with
      | SwDecision.abort ctx1 e => ([], ctx1, some e)
      | SwDecision.matched ch ctx1 => renderNode env f ch ctx1
      | SwDecision.nomatch ctx1 =>
        match node.child.find? (fun ch => ch.typ == TypeDefault) with
        | some dn => renderNode env f dn ctx1
        | none => ([], ctx1, none)
    else if node.typ = TypeExit then ([], ctx, some Err.interrupt)
    else ([], ctx, some Err.unknownCtl)) := rfl

/-- Unfold: one step of the shared child loop with fuel left. -/
theorem renderNodesSeq_cons (env : Env) (f : Nat) (n : Node) (rest : List Node)
    (ctx : Ctx) :
    renderNodesSeq env (f + 1) (n :: rest) ctx =
    (let p := renderNode env f n ctx
     match p.2.2 with
     | some e => (p.1, p.2.1, some e)
     | none =>
       let q := renderNodesSeq env f rest p.2.1
       (p.1 ++ q.1, q.2)) := rfl

/-- Unfold: one step of the loop-body walk with fuel left. -/
theorem iterateBody_cons (env : Env) (f : Nat) (ch : Node) (rest : List Node)
    (ctx : Ctx) :
    iterateBody env (f + 1) (ch :: rest) ctx =
    (let p := renderNode env f ch ctx
     if p.2.2 = some Err.breakLoop then (p.1, p.2.1, LoopCtl.brk)
     else if p.2.2 = some Err.contLoop then (p.1, p.2.1, LoopCtl.cnt)
     else
       let q := iterateBody env f rest p.2.1
       (p.1 ++ q.1, q.2)) := rfl

/-- Renderer invariant: under a signal-free oracle, no renderer function
ever stores a break or continue sentinel in the context's error slot —
the sentinels travel only through return values, where loops and the
top-level walk intercept them. -/
theorem signal_free_ctx_err (env : Env) (hE : EnvSignalFree env) : ∀ f : Nat,
    (∀ (node : Node) (ctx : Ctx), ErrOkOpt ctx.err →
       ErrOkOpt (renderNode env f node ctx).2.1.err) ∧
    (∀ (children : List Node) (r : Bool) (ctx : Ctx), ErrOkOpt ctx.err →
       ErrOkOpt (condTail env f children r ctx).2.1.err) ∧
    (∀ (ns : List Node) (ctx : Ctx), ErrOkOpt ctx.err →
       ErrOkOpt (renderNodesSeq env f ns ctx).2.1.err) ∧
    (∀ (ns : List Node) (ctx : Ctx), ErrOkOpt ctx.err →
       ErrOkOpt (iterateBody env f ns ctx).2.1.err) ∧
    (∀ (node : Node) (elems : List (Val × Val)) (cntr : Nat) (ctx : Ctx), ErrOkOpt ctx.err →
       ErrOkOpt (rloopDrive env f node elems cntr ctx).2.err) ∧
    (∀ (node : Node) (i lim : Int) (cntr : Nat) (ctx : Ctx), ErrOkOpt ctx.err →
       ErrOkOpt (cloopRun env f node i lim cntr ctx).2.err) := by
  intro f
  induction f with
  | zero =>
    refine ⟨fun node ctx h => h, ?_, ?_, ?_, ?_, fun node i lim c ctx h => h⟩
    · intro children r ctx h
      cases ctx with
      | mk vars cerr =>
        cases cerr with
        | none => exact h
        | some e => exact h
    · intro ns ctx h
      cases ns with
      | nil => exact h
      | cons n rest => exact h
    · intro ns ctx h
      cases ns with
      | nil => exact h
      | cons n rest => exact h
    · intro node elems c ctx h
      rcases elems with _ | ⟨⟨k, v⟩, rest⟩
      · exact h
      · exact h
  | succ f ih =>
    obtain ⟨ihR, ihC, ihS, ihB, ihL, ihK⟩ := ih
    refine ⟨?_, ?_, ?_, ?_, ?_, ?_⟩
    · -- renderNode
      intro node ctx h
      rw [renderNode_succ]
      by_cases t0 : node.typ = TypeRaw
      · rw [if_pos t0]
        exact h
      rw [if_neg t0]
      by_cases t1 : node.typ = TypeTpl
      · rw [if_pos t1]
        rcases hrp : (if node.rawStatic then (Val.vBytes node.raw, ctx)
            else getSscC env ctx node.raw node.rawSsc) with ⟨v0, ctx0⟩
        have h0 : ErrOkOpt ctx0.err := by
          by_cases hrs : node.rawStatic
          · rw [if_pos hrs] at hrp
            cases hrp
            exact h
          · rw [if_neg hrs] at hrp
            have := getSscC_err_ok hE ctx node.raw node.rawSsc h
            rw [hrp] at this
            exact this
        simp only [hrp]
        cases hce : ctx0.err with
        | some e => simp only [hce]; exact hce ▸ h0
        | none =>
          simp only [hce]
          rcases hmp : runMods env node.mod v0 ctx0 with ⟨v1, ctx1⟩
          have h1 : ErrOkOpt ctx1.err := by
            have := runMods_err_ok hE node.mod v0 ctx0 h0
            rw [hmp] at this
            exact this
          simp only [hmp]
          cases hc1 : ctx1.err with
          | some e => simp only [hc1]; exact hc1 ▸ h1
          | none =>
            simp only [hc1]
            split
            · exact h1
            · cases hcv : (env.anyToBytes v1).2 with
              | none => simp only [hcv]; exact h1
              | some e => simp only [hcv]; exact h1
      rw [if_neg t1]
      by_cases t2 : node.typ = TypeCtx
      · rw [if_pos t2]
        by_cases hcs : node.ctxSrcStatic
        · rw [if_pos hcs]
          exact h
        · rw [if_neg hcs]
          cases hgi : env.getInspector node.ctxIns with
          | some e => simp only [hgi]; exact h
          | none =>
            simp only [hgi]
            rcases hg : getSscC env ctx node.ctxSrc node.ctxSrcSsc with ⟨v, ctx1⟩
            have h1 := getSscC_err_ok hE ctx node.ctxSrc node.ctxSrcSsc h
            rw [hg] at h1
            simp only [hg]
            exact h1
      rw [if_neg t2]
      by_cases t3 : node.typ = TypeCond
      · rw [if_pos t3]
        by_cases hss : node.condLStatic ∧ node.condRStatic
        · rw [if_pos hss]
          exact h
        rw [if_neg hss]
        by_cases hr : node.condRStatic
        · rw [if_pos hr]
          rcases hcmp : cmpC env ctx node.condL node.condOp node.condR with ⟨r, ctx1⟩
          have h1 := cmpC_err_ok hE ctx node.condL node.condOp node.condR h
          rw [hcmp] at h1
          simp only [hcmp]
          exact ihC node.child r ctx1 h1
        rw [if_neg hr]
        by_cases hl : node.condLStatic
        · rw [if_pos hl]
          rcases hcmp : cmpC env ctx node.condR (Op.Swap node.condOp) node.condL with ⟨r, ctx1⟩
          have h1 := cmpC_err_ok hE ctx node.condR (Op.Swap node.condOp) node.condL h
          rw [hcmp] at h1
          simp only [hcmp]
          exact ihC node.child r ctx1 h1
        · rw [if_neg hl]
          rcases hg : getSscC env ctx node.condR node.condRSsc with ⟨v, ctx1⟩
          have h1 := getSscC_err_ok hE ctx node.condR node.condRSsc h
          rw [hg] at h1
          simp only [hg]
          by_cases hc1 : ctx1.err = none
          · rw [if_pos hc1]
            cases hcv : (env.anyToBytes v).2 with
            | some e => simp only [hcv]; exact h1
            | none =>
              simp only [hcv]
              rcases hcmp : cmpC env ctx1 node.condL node.condOp (env.anyToBytes v).1 with ⟨r, ctx2⟩
              have h2 := cmpC_err_ok hE ctx1 node.condL node.condOp (env.anyToBytes v).1 h1
              rw [hcmp] at h2
              simp only [hcmp]
              exact ihC node.child r ctx2 h2
          · rw [if_neg hc1]
            exact ihC node.child false ctx1 h1
      rw [if_neg t3]
      by_cases t4 : node.typ = TypeCondTrue ∨ node.typ = TypeCondFalse ∨
          node.typ = TypeCase ∨ node.typ = TypeDefault
      · rw [if_pos t4]
        exact ihS node.child ctx h
      rw [if_neg t4]
      by_cases t5 : node.typ = TypeLoopCount
      · rw [if_pos t5]
        rcases hp : cloopRun env f node (env.cloopInit ctx.vars node.loopCntInit node.loopCntStatic)
            (env.cloopLim ctx.vars node.loopLim node.loopLimStatic) 0 ctx with ⟨out, ctx1⟩
        have h1 := ihK node (env.cloopInit ctx.vars node.loopCntInit node.loopCntStatic) (env.cloopLim ctx.vars node.loopLim node.loopLimStatic) 0 ctx h
        rw [hp] at h1
        have h2 : ErrOkOpt ctx1.err := h1
        simp only [hp]
        cases hc1 : ctx1.err with
        | some e => simp only [hc1]; exact hc1 ▸ h2
        | none => simp only [hc1]; exact hc1 ▸ h2
      rw [if_neg t5]
      by_cases t6 : node.typ = TypeLoopRange
      · rw [if_pos t6]
        rcases hp : rloopDrive env f node (env.rangeElems ctx.vars node.loopSrc) 0 ctx with ⟨out, ctx1⟩
        have h1 := ihL node (env.rangeElems ctx.vars node.loopSrc) 0 ctx h
        rw [hp] at h1
        have h2 : ErrOkOpt ctx1.err := h1
        simp only [hp]
        cases hc1 : ctx1.err with
        | some e => simp only [hc1]; exact hc1 ▸ h2
        | none => simp only [hc1]; exact hc1 ▸ h2
      rw [if_neg t6]
      by_cases t7 : node.typ = TypeBreak
      · rw [if_pos t7]
        exact h
      rw [if_neg t7]
      by_cases t8 : node.typ = TypeContinue
      · rw [if_pos t8]
        exact h
      rw [if_neg t8]
      by_cases t9 : node.typ = TypeSwitch
      · rw [if_pos t9]
        by_cases hsa : node.switchArg.length > 0
        · simp only [if_pos hsa]
          rcases hd : switchScanArgD env node.switchArg node.child ctx with ⟨ctx1, e⟩ | ⟨ch, ctx1⟩ | ctx1
          · have hdk := switchScanArgD_err_ok hE node.switchArg node.child ctx h
            rw [hd] at hdk
            simp only [hd]
            exact hdk
          · have hdk := switchScanArgD_err_ok hE node.switchArg node.child ctx h
            rw [hd] at hdk
            simp only [hd]
            exact ihR ch ctx1 hdk
          · have hdk := switchScanArgD_err_ok hE node.switchArg node.child ctx h
            rw [hd] at hdk
            simp only [hd]
            cases hf : node.child.find? (fun ch => ch.typ == TypeDefault) with
            | some dn => simp only [hf]; exact ihR dn ctx1 hdk
            | none => simp only [hf]; exact hdk
        · simp only [if_neg hsa]
          rcases hd : switchScanNoArgD env node.child ctx with ⟨ctx1, e⟩ | ⟨ch, ctx1⟩ | ctx1
          · have hdk := switchScanNoArgD_err_ok hE node.child ctx h
            rw [hd] at hdk
            simp only [hd]
            exact hdk
          · have hdk := switchScanNoArgD_err_ok hE node.child ctx h
            rw [hd] at hdk
            simp only [hd]
            exact ihR ch ctx1 hdk
          · have hdk := switchScanNoArgD_err_ok hE node.child ctx h
            rw [hd] at hdk
            simp only [hd]
            cases hf : node.child.find? (fun ch => ch.typ == TypeDefault) with
            | some dn => simp only [hf]; exact ihR dn ctx1 hdk
            | none => simp only [hf]; exact hdk
      rw [if_neg t9]
      by_cases t10 : node.typ = TypeExit
      · rw [if_pos t10]
        exact h
      · rw [if_neg t10]
        exact h
    · -- condTail
      intro children r ctx h
      cases ctx with
      | mk vars cerr =>
        cases cerr with
        | some e => exact h
        | none =>
          cases hr : r
          · rcases children with _ | ⟨c, _ | ⟨c2, rest⟩⟩
            · exact h
            · exact h
            · exact ihR c _ h
          · cases children with
            | nil => exact h
            | cons c rest => exact ihR c _ h
    · -- renderNodesSeq
      intro ns ctx h
      cases ns with
      | nil => exact h
      | cons n rest =>
        rw [renderNodesSeq_cons]
        rcases hp : renderNode env f n ctx with ⟨out, ctx1, me⟩
        have h1 : ErrOkOpt ctx1.err := by
          have := ihR n ctx h
          rw [hp] at this
          exact this
        simp only [hp]
        cases me with
        | some e => exact h1
        | none => exact ihS rest ctx1 h1
    · -- iterateBody
      intro ns ctx h
      cases ns with
      | nil => exact h
      | cons n rest =>
        rw [iterateBody_cons]
        rcases hp : renderNode env f n ctx with ⟨out, ctx1, me⟩
        have h1 : ErrOkOpt ctx1.err := by
          have := ihR n ctx h
          rw [hp] at this
          exact this
        simp only [hp]
        split
        · exact h1
        split
        · exact h1
        · exact ihB rest ctx1 h1
    · -- rloopDrive
      intro node elems c ctx h
      rcases elems with _ | ⟨⟨k, v⟩, rest⟩
      · rw [rloopDrive_nil]
        exact h
      · rw [rloopDrive_cons]
        have hc2 : ErrOkOpt ((if node.loopKey.length > 0 then ctx.set node.loopKey k
            else ctx).set node.loopVal v).err := by
          rw [set_err, ite_set_err]
          exact h
        rcases hp : iterateBody env f node.child ((if node.loopKey.length > 0 then
            ctx.set node.loopKey k else ctx).set node.loopVal v) with ⟨out, ctx1, ctl⟩
        have h1 : ErrOkOpt ctx1.err := by
          have := ihB node.child _ hc2
          rw [hp] at this
          exact this
        simp only [hp]
        cases ctl with
        | brk => exact h1
        | nrm =>
          rcases hq : rloopDrive env f node rest (c + 1) ctx1 with ⟨qo, ctx2⟩
          have h2 := ihL node rest (c + 1) ctx1 h1
          rw [hq] at h2
          simp only [hq]
          exact h2
        | cnt =>
          rcases hq : rloopDrive env f node rest (c + 1) ctx1 with ⟨qo, ctx2⟩
          have h2 := ihL node rest (c + 1) ctx1 h1
          rw [hq] at h2
          simp only [hq]
          exact h2
    · -- cloopRun
      intro node i lim c ctx h
      simp only [cloopRun]
      split
      · have hc1 : ErrOkOpt (ctx.set node.loopCnt (Val.vInt i)).err := by
          rw [set_err]
          exact h
        rcases hp : iterateBody env f node.child (ctx.set node.loopCnt (Val.vInt i)) with ⟨out, ctx1, ctl⟩
        have h1 : ErrOkOpt ctx1.err := by
          have := ihB node.child _ hc1
          rw [hp] at this
          exact this
        simp only [hp]
        cases ctl with
        | brk => exact h1
        | nrm =>
          rcases hq : cloopRun env f node (if node.loopCntOp = OpDec then i - 1 else i + 1) lim (c + 1) ctx1 with ⟨qo, ctx2⟩
          have h2 := ihK node (if node.loopCntOp = OpDec then i - 1 else i + 1) lim (c + 1) ctx1 h1
          rw [hq] at h2
          simp only [hq]
          exact h2
        | cnt =>
          rcases hq : cloopRun env f node (if node.loopCntOp = OpDec then i - 1 else i + 1) lim (c + 1) ctx1 with ⟨qo, ctx2⟩
          have h2 := ihK node (if node.loopCntOp = OpDec then i - 1 else i + 1) lim (c + 1) ctx1 h1
          rw [hq] at h2
          simp only [hq]
          exact h2
      · exact h

/-- Unfold: one step of the top-level node walk with fuel left. -/
theorem renderNodesTop_cons (env : Env) (f : Nat) (n : Node) (rest : List Node)
    (ctx : Ctx) :
    renderNodesTop env (f + 1) (n :: rest) ctx =
    (let p := renderNode env f n ctx
     match p.2.2 with
     | some e => (p.1, p.2.1, if e = Err.interrupt then none else some e)
     | none =>
       let q := renderNodesTop env f rest p.2.1
       (p.1 ++ q.1, q.2)) := rfl

/-- The top-level walk of `RenderTo` never reports the interrupt
sentinel: an Exit outcome is downgraded to success on the spot. -/
theorem renderNodesTop_no_interrupt (env : Env) :
    ∀ (f : Nat) (ns : List Node) (ctx : Ctx),
    (renderNodesTop env f ns ctx).2.2 ≠ some Err.interrupt := by
  intro f
  induction f with
  | zero =>
    intro ns ctx
    cases ns with
    | nil => nofun
    | cons n rest => nofun
  | succ f ih =>
    intro ns ctx
    cases ns with
    | nil => nofun
    | cons n rest =>
      rw [renderNodesTop_cons]
      rcases hp : renderNode env f n ctx with ⟨out, ctx1, me⟩
      simp only [hp]
      cases me with
      | some e =>
        by_cases he : e = Err.interrupt
        · simp [he]
        · simp [he]
      | none =>
        exact ih rest ctx1

/-- A bare Break node, used at template top level. -/
def breakTopNode : Node := Node.mk { typ := TypeBreak }

/-- A bare Exit node. -/
def exitTopNode : Node := Node.mk { typ := TypeExit }

/-- A bare range-loop node. -/
def rangeTopNode : Node := Node.mk { typ := TypeLoopRange }

/-- A bare counting-loop node. -/
def countTopNode : Node := Node.mk { typ := TypeLoopCount }

/-- A registry holding one template whose only top-level node is a Break. -/
def breakTopReg : List (Bytes × Tree) :=
  RegisterTpl ("t").toList { nodes := [breakTopNode] } []

/-- C3 counterexample: a Break node outside any loop is NOT consumed —
its sentinel escapes `RenderTo`, which returns `ErrBreakLoop` to the
caller as a failure, against the claim's “wherever those nodes occur”. -/
theorem renderTo_toplevel_break_escapes :
    RenderTo env0 2 breakTopReg ("t").toList {} =
      ([], ({} : Ctx), some Err.breakLoop) := by rfl

/-- The basic oracle is signal-free. -/
theorem env0_signal_free : EnvSignalFree env0 := by
  refine ⟨fun _ _ _ => ⟨nofun, nofun⟩, fun _ _ _ _ => ⟨nofun, nofun⟩, ?_,
    fun _ _ _ _ => ⟨nofun, nofun⟩, fun _ => ⟨nofun, nofun⟩⟩
  intro v
  cases v <;> exact ⟨nofun, nofun⟩

/-- C3 (amended): under a signal-free oracle, (1) `RenderTo` never
returns the interrupt sentinel to its caller; (2) an Exit node at the
head of the top-level walk yields immediate success with nothing
written; (3)–(4) rendering a range loop or a counting loop never
reports break or continue: the loops consume the sentinels their bodies
raise.  (A Break or Continue outside any loop, however, escapes — see
the counterexample.) -/
theorem control_flow_signals (env : Env) (hE : EnvSignalFree env) :
    (∀ (f : Nat) (reg : List (Bytes × Tree)) (id : Bytes) (ctx : Ctx),
       (RenderTo env f reg id ctx).2.2 ≠ some Err.interrupt) ∧
    (∀ (f : Nat) (node : Node) (rest : List Node) (ctx : Ctx), node.typ = TypeExit →
       renderNodesTop env (f + 1 + 1) (node :: rest) ctx = ([], ctx, none)) ∧
    (∀ (f : Nat) (node : Node) (ctx : Ctx), node.typ = TypeLoopRange → ErrOkOpt ctx.err →
       (renderNode env f node ctx).2.2 ≠ some Err.breakLoop ∧
       (renderNode env f node ctx).2.2 ≠ some Err.contLoop) ∧
    (∀ (f : Nat) (node : Node) (ctx : Ctx), node.typ = TypeLoopCount → ErrOkOpt ctx.err →
       (renderNode env f node ctx).2.2 ≠ some Err.breakLoop ∧
       (renderNode env f node ctx).2.2 ≠ some Err.contLoop) := by
  refine ⟨?_, ?_, ?_, ?_⟩
  · intro f reg id ctx
    simp only [RenderTo]
    cases hm : mapGet id reg with
    | none => simp only [hm]; nofun
    | some tree =>
      simp only [hm]
      exact renderNodesTop_no_interrupt env f tree.nodes ctx
  · intro f node rest ctx hT
    have hrn : renderNode env (f + 1) node ctx = ([], ctx, some Err.interrupt) := by
      rw [renderNode_succ]
      rw [if_neg (by rw [hT]; decide), if_neg (by rw [hT]; decide),
          if_neg (by rw [hT]; decide), if_neg (by rw [hT]; decide),
          if_neg (by rw [hT]; decide), if_neg (by rw [hT]; decide),
          if_neg (by rw [hT]; decide), if_neg (by rw [hT]; decide),
          if_neg (by rw [hT]; decide), if_neg (by rw [hT]; decide), if_pos hT]
    rw [renderNodesTop_cons]
    simp only [hrn]
    simp
  · intro f node ctx hT hok
    cases f with
    | zero => exact ⟨nofun, nofun⟩
    | succ f =>
      rw [renderNode_succ]
      rw [if_neg (by rw [hT]; decide), if_neg (by rw [hT]; decide),
          if_neg (by rw [hT]; decide), if_neg (by rw [hT]; decide),
          if_neg (by rw [hT]; decide), if_neg (by rw [hT]; decide), if_pos hT]
      rcases hp : rloopDrive env f node (env.rangeElems ctx.vars node.loopSrc) 0 ctx with ⟨out, ctx1⟩
      have h1 := (signal_free_ctx_err env hE f).2.2.2.2.1 node
        (env.rangeElems ctx.vars node.loopSrc) 0 ctx hok
      rw [hp] at h1
      have h2 : ErrOkOpt ctx1.err := h1
      simp only [hp]
      cases hc1 : ctx1.err with
      | some e =>
        simp only [hc1]
        exact hc1 ▸ h2
      | none =>
        simp only [hc1]
        exact ⟨nofun, nofun⟩
  · intro f node ctx hT hok
    cases f with
    | zero => exact ⟨nofun, nofun⟩
    | succ f =>
      rw [renderNode_succ]
      rw [if_neg (by rw [hT]; decide), if_neg (by rw [hT]; decide),
          if_neg (by rw [hT]; decide), if_neg (by rw [hT]; decide),
          if_neg (by rw [hT]; decide), if_pos hT]
      rcases hp : cloopRun env f node (env.cloopInit ctx.vars node.loopCntInit node.loopCntStatic)
          (env.cloopLim ctx.vars node.loopLim node.loopLimStatic) 0 ctx with ⟨out, ctx1⟩
      have h1 := (signal_free_ctx_err env hE f).2.2.2.2.2 node
        (env.cloopInit ctx.vars node.loopCntInit node.loopCntStatic)
        (env.cloopLim ctx.vars node.loopLim node.loopLimStatic) 0 ctx hok
      rw [hp] at h1
      have h2 : ErrOkOpt ctx1.err := h1
      simp only [hp]
      cases hc1 : ctx1.err with
      | some e =>
        simp only [hc1]
        exact hc1 ▸ h2
      | none =>
        simp only [hc1]
        exact ⟨nofun, nofun⟩

/-- Witness: the conjuncts of C3 instantiated on the basic oracle with
concrete nodes and registry. -/
theorem control_flow_signals_witness :
    (RenderTo env0 5 breakTopReg ("t").toList {}).2.2 ≠ some Err.interrupt ∧
    renderNodesTop env0 2 [exitTopNode] {} = ([], ({} : Ctx), none) ∧
    (renderNode env0 3 rangeTopNode {}).2.2 ≠ some Err.breakLoop ∧
    (renderNode env0 3 countTopNode {}).2.2 ≠ some Err.contLoop :=
  ⟨(control_flow_signals env0 env0_signal_free).1 5 breakTopReg (("t").toList) {},
   (control_flow_signals env0 env0_signal_free).2.1 0 exitTopNode [] {} rfl,
   ((control_flow_signals env0 env0_signal_free).2.2.1 3 rangeTopNode {} rfl ⟨nofun, nofun⟩).1,
   ((control_flow_signals env0 env0_signal_free).2.2.2 3 countTopNode {} rfl ⟨nofun, nofun⟩).2⟩
